import Mathlib

/-!
Shallow embedding of the CPC daemon System Endpoint
(`src/server_core/system_endpoint/system.c`, the Information-Poll "Mode B"
implementation, and `src/server_core/server/system/system.c`, the legacy
Unnumbered-Poll "Mode A" implementation).

Machine integers are modelled as `Nat` with explicit truncation where the C
code truncates.  Memory buffers are lists of byte values.  Host endianness is
an explicit parameter `Endian` wherever the C code reads or writes multi-byte
values through pointer casts.
-/

set_option maxRecDepth 200000

namespace CpcSystem

/-- Little-endian serialization of a value into `w` bytes, least significant
byte first.  This is the byte-level meaning of `cpu_to_le16/32/64` applied to
a value and stored to memory: whatever the host endianness, the bytes that
end up in the buffer are the little-endian encoding. -/
def toLEBytes : Nat → Nat → List Nat
  | 0, _ => []
  | w + 1, v => v % 256 :: toLEBytes w (v / 256)

/-- Interpret a byte list as a little-endian number. -/
def fromLEBytes : List Nat → Nat
  | [] => 0
  | b :: bs => b + 256 * fromLEBytes bs

/-- Host byte order. -/
inductive Endian
  | little
  | big
deriving DecidableEq, Repr

/-- Reading bytes of memory as a host-order unsigned integer (a C pointer
cast followed by a dereference). -/
def hostRead : Endian → List Nat → Nat
  | .little, bs => fromLEBytes bs
  | .big, bs => fromLEBytes bs.reverse

/-- The bytes that the host representation of value `v` (width `w`) occupies
in memory. -/
def hostBytes : Endian → Nat → Nat → List Nat
  | .little, w, v => toLEBytes w v
  | .big, w, v => (toLEBytes w v).reverse

/-- Byte-swap of a `w`-byte value. -/
def bswap (w v : Nat) : Nat := fromLEBytes ((toLEBytes w v).reverse)

/-- The `le32_to_cpu`-style conversion on a `w`-byte value already held in a
host register: identity on a little-endian host, byte swap on a big-endian
host. -/
def leToCpu (e : Endian) (w v : Nat) : Nat :=
  match e with
  | .little => v
  | .big => bswap w v

/-- Unsigned `size_t` subtraction (the C expressions `answer_lenght -
sizeof(sl_cpc_system_cmd_t)` and `reply->length -
sizeof(sl_cpc_system_property_cmd_t)` are computed in `size_t` and wrap
modulo `2 ^ 64`). -/
def subSizeT (a b : Nat) : Nat := (a + 2 ^ 64 - b) % 2 ^ 64

/-- Validity of a memory image: every entry is a byte. -/
abbrev ByteOk (bs : List Nat) : Prop := ∀ b ∈ bs, b < 256

/-! ### Wire data model

The frame header type `sl_cpc_system_cmd_t` and the command/property id
enums are declared in `system.h`, which is not among the sources; they are
modelled from the spec (§3 Data Model). -/

/-- Modelled from the spec: command id `NOOP = 0x01` (§3). -/
def CMD_SYSTEM_NOOP : Nat := 0x01

/-- Modelled from the spec: command id `RESET = 0x02` (§3). -/
def CMD_SYSTEM_RESET : Nat := 0x02

/-- Modelled from the spec: command id `PROP_VALUE_GET = 0x03` (§3). -/
def CMD_SYSTEM_PROP_VALUE_GET : Nat := 0x03

/-- Modelled from the spec: command id `PROP_VALUE_SET = 0x04` (§3). -/
def CMD_SYSTEM_PROP_VALUE_SET : Nat := 0x04

/-- Modelled from the spec: command id `PROP_VALUE_IS = 0x05` (§3). -/
def CMD_SYSTEM_PROP_VALUE_IS : Nat := 0x05

/-- Modelled from the spec: `PROP_LAST_STATUS` is property id `0x00` (§4.6). -/
def PROP_LAST_STATUS : Nat := 0x00

/-- Modelled from the spec: base of the `PROP_ENDPOINT_STATE_0 ..
PROP_ENDPOINT_STATE_255` property family (§4.6).  The spec fixes only the
256-wide range and the offset relation `endpoint_id = property_id -
PROP_ENDPOINT_STATE_0`, not the numeric base; the concrete base chosen here
is arbitrary and no claim depends on it. -/
def PROP_ENDPOINT_STATE_0 : Nat := 0x4300

/-- Top of the endpoint-state property family. -/
def PROP_ENDPOINT_STATE_255 : Nat := PROP_ENDPOINT_STATE_0 + 255

/-- Modelled from the spec: `sizeof(sl_cpc_system_cmd_t)` — the packed
3-byte frame header `command_id, command_seq, length` (§3). -/
def SIZEOF_SL_CPC_SYSTEM_CMD : Nat := 3

/-- Modelled from the spec: `sizeof(sl_cpc_property_id_t)` =
`sizeof(sl_cpc_system_property_cmd_t)` = 4 — the 4-byte little-endian
property id that starts every property payload (§3). -/
def SIZEOF_SL_CPC_PROPERTY_ID : Nat := 4

/-- Modelled from the spec: the numeric value of the `STATUS_FAILURE`
constant passed to a reset handler on timeout; no claim depends on the
concrete value. -/
def STATUS_FAILURE : Nat := 1

/-- Modelled from the spec: the numeric value of `SL_CPC_STATE_CLOSED` in
the `cpc_endpoint_state_t` enum; no claim depends on the concrete value. -/
def SL_CPC_STATE_CLOSED : Nat := 1

/-- The `sl_status_t` error kinds used by this core (§7 Error kinds). -/
inductive SlStatus
  | ok
  | inProgress
  | timeout
deriving DecidableEq, Repr

/-- Endpoint states observed via `core_get_endpoint_state` /
`core_set_endpoint_in_error`. -/
inductive CpcEndpointState
  | opened
  | closed
  | errorDestinationUnreachable
  | other
deriving DecidableEq, Repr

/-- Flags of `core_write`. -/
inductive WriteFlag
  | informationPoll
  | unnumberedPoll
  | unnumberedResetCommand
deriving DecidableEq, Repr

/-- The `sl_cpc_system_cmd_t` buffer: 3-byte header followed by `payload`. -/
structure SlCpcSystemCmd where
  command_id : Nat
  command_seq : Nat
  length : Nat
  payload : List Nat
deriving DecidableEq, Repr

/-- The bytes handed to `core_write`: `SIZEOF_SYSTEM_COMMAND(command)` =
`sizeof(sl_cpc_system_cmd_t) + command->length` bytes starting at the
header. -/
def SlCpcSystemCmd.serialize (c : SlCpcSystemCmd) : List Nat :=
  c.command_id :: c.command_seq :: c.length :: c.payload.take c.length

/-- Casting a received buffer to `sl_cpc_system_cmd_t *`: the first three
bytes are the header fields, the rest is the payload. -/
def parseFrame (data : List Nat) : SlCpcSystemCmd :=
  { command_id := data.getD 0 0
    command_seq := data.getD 1 0
    length := data.getD 2 0
    payload := data.drop 3 }

/-- Arguments with which a per-kind final handler is invoked (the
heterogeneous `on_final` slot, dispatched by command id). -/
inductive CallbackArgs
  | noopArgs (status : SlStatus)
  | resetArgs (status : SlStatus) (reset_status : Nat)
  | propertyArgs (property_id : Nat) (value : Option (List Nat)) (value_len : Nat)
      (status : SlStatus)
deriving DecidableEq, Repr

/-- The `error_status` a final handler receives. -/
def CallbackArgs.status : CallbackArgs → SlStatus
  | .noopArgs st => st
  | .resetArgs st _ => st
  | .propertyArgs _ _ _ st => st

/-- Externally observable actions of the core, recorded as a trace. -/
inductive Event
  | coreWrite (flag : WriteFlag) (bytes : List Nat)
  | finalCallback (hid : Nat) (args : CallbackArgs)
  | setEndpointInError (ep : Nat) (reason : CpcEndpointState)
  | lastStatusFanout (status : Nat)
  | timerArmed (fd : Option Nat)
  | warn
  | fatal
  | endpointClosed
  | endpointOpened
deriving DecidableEq, Repr

/-- The in-memory `sl_cpc_system_command_handle_t`.

`timer_fd` models `re_transmit_timer_private_data.file_descriptor`; it is
`none` until a timer has been created for this handle.  `hid` and
`issue_idx` are model instrumentation: `hid` stands for the C pointer
identity of the malloc'ed handle, and `issue_idx` records the value of the
global issuance counter at the moment the handle was stamped (it is not
changed by a retransmission). -/
structure CommandHandle where
  command_seq : Nat
  command : SlCpcSystemCmd
  retry_count : Nat
  retry_timeout_us : Nat
  error_status : SlStatus
  timer_fd : Option Nat
  hid : Nat
  issue_idx : Nat
deriving DecidableEq, Repr

/-- The module-level mutable state of `system.c` plus model bookkeeping.

`commands` is the singly linked list of in-flight handles (tail = most
recently pushed).  `liveTimerFds` are timer file descriptors created and not
yet closed; `registeredTimerFds` are those currently registered in the epoll
set.  `issued_total` and `next_hid` are model instrumentation counting
issuer stampings and handle allocations; `events` is the trace of observable
actions. -/
structure SysState where
  next_command_seq : Nat
  commands : List CommandHandle
  liveTimerFds : List Nat
  registeredTimerFds : List Nat
  nextFd : Nat
  ignore_reset_reason : Bool
  prop_last_status_callbacks : Nat
  issued_total : Nat
  next_hid : Nat
  events : List Event
deriving DecidableEq, Repr

/-- External collaborators consulted by the unsolicited dispatcher:
`server_listener_list_empty` and `core_get_endpoint_state`. -/
structure Env where
  listener_list_empty : Nat → Bool
  endpoint_state : Nat → CpcEndpointState

/-- `sl_cpc_system_init` followed by `sl_cpc_system_open_endpoint`: empty
lists, sequence counter 0, endpoint opened. -/
def sl_cpc_system_init : SysState :=
  { next_command_seq := 0
    commands := []
    liveTimerFds := []
    registeredTimerFds := []
    nextFd := 0
    ignore_reset_reason := true
    prop_last_status_callbacks := 0
    issued_total := 0
    next_hid := 0
    events := [.endpointOpened] }

/-- `sl_cpc_system_register_unsolicited_prop_last_status_callback`. -/
def registerPropLastStatusCallback (s : SysState) : SysState :=
  { s with prop_last_status_callbacks := s.prop_last_status_callbacks + 1 }

/-! ### Command issuer (Mode B, `src/server_core/system_endpoint/system.c`) -/

/-- `write_command`: push the handle at the tail of `commands` and hand the
serialized frame to Core with the Information-Poll flag.  No timer is
touched here (Mode B arms the timer only on poll-ack). -/
def write_command (s : SysState) (h : CommandHandle) : SysState :=
  { s with
    commands := s.commands ++ [h]
    events := s.events ++ [.coreWrite .informationPoll h.command.serialize] }

/-- `sl_cpc_system_cmd_noop`. -/
def sl_cpc_system_cmd_noop (s : SysState) (retry_count_max retry_timeout_us : Nat) :
    SysState :=
  let seq := s.next_command_seq
  let h : CommandHandle :=
    { command_seq := seq
      command := { command_id := CMD_SYSTEM_NOOP, command_seq := seq, length := 0,
                   payload := [] }
      retry_count := retry_count_max
      retry_timeout_us := retry_timeout_us
      error_status := .ok
      timer_fd := none
      hid := s.next_hid
      issue_idx := s.issued_total }
  write_command
    { s with
      next_command_seq := (s.next_command_seq + 1) % 256
      issued_total := s.issued_total + 1
      next_hid := s.next_hid + 1 } h

/-- `sl_cpc_system_cmd_reboot`. -/
def sl_cpc_system_cmd_reboot (s : SysState) (retry_count_max retry_timeout_us : Nat) :
    SysState :=
  let seq := s.next_command_seq
  let h : CommandHandle :=
    { command_seq := seq
      command := { command_id := CMD_SYSTEM_RESET, command_seq := seq, length := 0,
                   payload := [] }
      retry_count := retry_count_max
      retry_timeout_us := retry_timeout_us
      error_status := .ok
      timer_fd := none
      hid := s.next_hid
      issue_idx := s.issued_total }
  write_command
    { s with
      next_command_seq := (s.next_command_seq + 1) % 256
      issued_total := s.issued_total + 1
      next_hid := s.next_hid + 1 } h

/-- `sl_cpc_system_cmd_property_get`.  The stored property id
`cpu_to_le32(property_id)` occupies the 4 payload bytes in little-endian
order on either host. -/
def sl_cpc_system_cmd_property_get (s : SysState)
    (property_id retry_count_max retry_timeout_us : Nat) : SysState :=
  let seq := s.next_command_seq
  let h : CommandHandle :=
    { command_seq := seq
      command := { command_id := CMD_SYSTEM_PROP_VALUE_GET, command_seq := seq,
                   length := SIZEOF_SL_CPC_PROPERTY_ID,
                   payload := toLEBytes 4 property_id }
      retry_count := retry_count_max
      retry_timeout_us := retry_timeout_us
      error_status := .ok
      timer_fd := none
      hid := s.next_hid
      issue_idx := s.issued_total }
  write_command
    { s with
      next_command_seq := (s.next_command_seq + 1) % 256
      issued_total := s.issued_total + 1
      next_hid := s.next_hid + 1 } h

/-- The `switch (value_length)` of `sl_cpc_system_cmd_property_set`: values
of length 2, 4, 8 are read from host memory (`cpu_to_leNp`) and stored
little-endian; length 1 and any other length are copied verbatim. -/
def propertySetValueBytes (e : Endian) (value : List Nat) : List Nat :=
  if value.length = 2 then toLEBytes 2 (hostRead e value)
  else if value.length = 4 then toLEBytes 4 (hostRead e value)
  else if value.length = 8 then toLEBytes 8 (hostRead e value)
  else value

/-- `sl_cpc_system_cmd_property_set`.  `value` is the host-memory byte image
of the caller's value.  A zero-length value is `FATAL`; the
`tx_command->length` field is an 8-bit store. -/
def sl_cpc_system_cmd_property_set (e : Endian) (s : SysState)
    (retry_count_max retry_timeout_us property_id : Nat) (value : List Nat) :
    SysState :=
  if value.length = 0 then
    { s with events := s.events ++ [.fatal] }
  else
    let seq := s.next_command_seq
    let h : CommandHandle :=
      { command_seq := seq
        command := { command_id := CMD_SYSTEM_PROP_VALUE_SET, command_seq := seq,
                     length := (SIZEOF_SL_CPC_PROPERTY_ID + value.length) % 256,
                     payload := toLEBytes 4 property_id ++ propertySetValueBytes e value }
        retry_count := retry_count_max
        retry_timeout_us := retry_timeout_us
        error_status := .ok
        timer_fd := none
        hid := s.next_hid
        issue_idx := s.issued_total }
    write_command
      { s with
        next_command_seq := (s.next_command_seq + 1) % 256
        issued_total := s.issued_total + 1
        next_hid := s.next_hid + 1 } h

/-! ### Timers and inbound hooks (Mode B) -/

/-- In-place mutation of the first list element satisfying `p` (the C code
updates the fields of the node it found while walking the list). -/
def updateFirst (p : α → Bool) (f : α → α) : List α → List α
  | [] => []
  | x :: xs => if p x then f x :: xs else x :: updateFirst p f xs

/-- Closing a timer file descriptor: drop it from the set of open fds.  A
handle that never had a timer (`none`) closes a garbage fd, which the model
treats as a no-op. -/
def closeFd (fds : List Nat) : Option Nat → List Nat
  | some fd => fds.erase fd
  | none => fds

/-- `sl_cpc_system_cmd_poll_acknowledged`: find the command whose poll the
secondary just acknowledged.  On `SL_STATUS_OK` a fresh timerfd is created,
armed, and registered in the epoll set; on `SL_STATUS_IN_PROGRESS` the
existing timer is simply rearmed; any other status (or no matching command)
is only a warning. -/
def sl_cpc_system_cmd_poll_acknowledged (s : SysState) (acked : SlCpcSystemCmd) :
    SysState :=
  match s.commands.find? (fun h => h.command_seq == acked.command_seq) with
  | none => { s with events := s.events ++ [.warn] }
  | some h =>
    if h.error_status = .ok then
      let fd := s.nextFd
      { s with
        nextFd := s.nextFd + 1
        liveTimerFds := s.liveTimerFds ++ [fd]
        registeredTimerFds := s.registeredTimerFds ++ [fd]
        commands := updateFirst (fun g => g.command_seq == acked.command_seq)
          (fun g => { g with timer_fd := some fd }) s.commands
        events := s.events ++ [.timerArmed (some fd)] }
    else if h.error_status = .inProgress then
      { s with events := s.events ++ [.timerArmed h.timer_fd] }
    else
      { s with events := s.events ++ [.warn] }

/-- The arguments with which `sl_cpc_system_cmd_timed_out` invokes the final
handler, by command kind.  For a property command the `property_id` argument
is the raw host-order read of the first 4 transmit-buffer payload bytes
(`tx_property_command->property_id`, no `le32_to_cpu`), the value is `NULL`
and the length 0. -/
def timedOutCallbackEvents (e : Endian) (h : CommandHandle) : List Event :=
  if h.command.command_id = CMD_SYSTEM_NOOP then
    [.finalCallback h.hid (.noopArgs .timeout)]
  else if h.command.command_id = CMD_SYSTEM_RESET then
    [.finalCallback h.hid (.resetArgs .timeout STATUS_FAILURE)]
  else if h.command.command_id = CMD_SYSTEM_PROP_VALUE_GET
      ∨ h.command.command_id = CMD_SYSTEM_PROP_VALUE_SET then
    [.finalCallback h.hid
      (.propertyArgs (hostRead e (h.command.payload.take 4)) none 0 .timeout)]
  else
    [.fatal]

/-- `sl_cpc_system_cmd_timed_out`: find the pending command with the
sequence number of the timed-out buffer (`BUG` if absent), unlink it, set
`error_status = SL_STATUS_TIMEOUT`, invoke the final handler once, and free
the buffer and the handle. -/
def sl_cpc_system_cmd_timed_out (e : Endian) (s : SysState)
    (frame : SlCpcSystemCmd) : SysState :=
  match s.commands.find? (fun h => h.command_seq == frame.command_seq) with
  | none => { s with events := s.events ++ [.fatal] }
  | some h =>
    { s with
      commands := s.commands.eraseP (fun g => g.command_seq == frame.command_seq)
      events := s.events ++ timedOutCallbackEvents e { h with error_status := .timeout } }

/-- `on_timer_expired` (Mode B): recover the owning handle from the timer's
epoll private data (`container_of`, modelled by the handle identity `hid`).
With retries left, unlink the handle, decrement `retry_count`, mark
`SL_STATUS_IN_PROGRESS`, and resubmit through `write_command`; with none
left, unregister and close the timer and run the timeout path. -/
def on_timer_expired (e : Endian) (s : SysState) (hid : Nat) : SysState :=
  match s.commands.find? (fun h => h.hid == hid) with
  | none => s
  | some h =>
    if 0 < h.retry_count then
      write_command
        { s with commands := s.commands.eraseP (fun g => g.hid == hid) }
        { h with retry_count := h.retry_count - 1, error_status := .inProgress }
    else
      sl_cpc_system_cmd_timed_out e
        { s with
          registeredTimerFds := closeFd s.registeredTimerFds h.timer_fd
          liveTimerFds := closeFd s.liveTimerFds h.timer_fd }
        h.command

/-- Outcome of the reply dispatcher, distinguishing the fatal aborts from
the drop modes. -/
inductive ReplyOutcome
  | fatalMalformed
  | fatalIllegal
  | handled
  | warnedDrop
  | silentDrop
deriving DecidableEq, Repr

/-- `on_final_noop`. -/
def on_final_noop (h : CommandHandle) : CallbackArgs :=
  .noopArgs h.error_status

/-- `on_final_reset`: the 4-byte reply payload is read from memory and
converted with `le32_to_cpu`. -/
def on_final_reset (e : Endian) (h : CommandHandle) (reply : SlCpcSystemCmd) :
    CallbackArgs :=
  .resetArgs h.error_status (leToCpu e 4 (hostRead e (reply.payload.take 4)))

/-- `on_final_property_is`: the property id is read from the reply buffer
and converted with `le32_to_cpu`; the value pointer is the payload past the
property id and `value_length = reply->length -
sizeof(sl_cpc_system_property_cmd_t)` in `size_t` arithmetic. -/
def on_final_property_is (e : Endian) (h : CommandHandle)
    (reply : SlCpcSystemCmd) : CallbackArgs :=
  .propertyArgs (leToCpu e 4 (hostRead e (reply.payload.take 4)))
    (some (reply.payload.drop 4))
    (subSizeT reply.length SIZEOF_SL_CPC_PROPERTY_ID)
    h.error_status

/-- `on_reply` (Mode B): length sanity check first (`FATAL` on mismatch),
then lookup by `command_seq` (warn-and-drop if absent), then unregister and
close the retransmit timer, dispatch to the per-kind final handler (`FATAL`
for primary-only or unknown command ids), and finally unlink and free the
handle. -/
def on_reply (e : Endian) (s : SysState) (answer : List Nat) :
    SysState × ReplyOutcome :=
  let reply := parseFrame answer
  if reply.length ≠ subSizeT answer.length SIZEOF_SL_CPC_SYSTEM_CMD then
    ({ s with events := s.events ++ [.fatal] }, .fatalMalformed)
  else
    match s.commands.find? (fun h => h.command_seq == reply.command_seq) with
    | none => ({ s with events := s.events ++ [.warn] }, .warnedDrop)
    | some h =>
      let s1 := { s with
        registeredTimerFds := closeFd s.registeredTimerFds h.timer_fd
        liveTimerFds := closeFd s.liveTimerFds h.timer_fd }
      let finish := fun (s2 : SysState) (args : CallbackArgs) =>
        ({ s2 with
           commands := s2.commands.eraseP (fun g => g.command_seq == reply.command_seq)
           events := s2.events ++ [.finalCallback h.hid args] }, ReplyOutcome.handled)
      if reply.command_id = CMD_SYSTEM_NOOP then
        finish s1 (on_final_noop h)
      else if reply.command_id = CMD_SYSTEM_RESET then
        finish { s1 with ignore_reset_reason := false } (on_final_reset e h reply)
      else if reply.command_id = CMD_SYSTEM_PROP_VALUE_IS then
        finish s1 (on_final_property_is e h reply)
      else
        ({ s1 with events := s1.events ++ [.fatal] }, .fatalIllegal)

/-- Outcome of the unsolicited dispatcher. -/
inductive UnsolOutcome
  | fatalMalformed
  | ignored
  | lastStatus
  | endpointState
  | fatalInvalidProp
deriving DecidableEq, Repr

/-- `on_unsolicited` (Mode B): length sanity check first; then only
`PROP_VALUE_IS` frames are examined (any other command id falls through the
`if` and is ignored).  `PROP_LAST_STATUS` fans the raw 4-byte status out to
the registered listeners; an endpoint-state property puts the endpoint in
error when it is open and has listeners, and always issues the closing
`property_set` (5 retries, 100 ms) with the same raw property id; any other
property id is `FATAL`. -/
def on_unsolicited (e : Endian) (env : Env) (s : SysState) (data : List Nat) :
    SysState × UnsolOutcome :=
  let reply := parseFrame data
  if reply.length ≠ subSizeT data.length SIZEOF_SL_CPC_SYSTEM_CMD then
    ({ s with events := s.events ++ [.fatal] }, .fatalMalformed)
  else if reply.command_id = CMD_SYSTEM_PROP_VALUE_IS then
    let property_id := hostRead e (reply.payload.take 4)
    if property_id = PROP_LAST_STATUS then
      let status := hostRead e ((reply.payload.drop 4).take 4)
      ({ s with
         events := s.events
           ++ List.replicate s.prop_last_status_callbacks (.lastStatusFanout status) },
       .lastStatus)
    else if PROP_ENDPOINT_STATE_0 ≤ property_id ∧ property_id ≤ PROP_ENDPOINT_STATE_255 then
      let closed_endpoint_id := property_id - PROP_ENDPOINT_STATE_0
      let s1 :=
        if env.listener_list_empty closed_endpoint_id = false
            ∧ env.endpoint_state closed_endpoint_id = .opened then
          { s with events := s.events
              ++ [.setEndpointInError closed_endpoint_id .errorDestinationUnreachable] }
        else s
      (sl_cpc_system_cmd_property_set e s1 5 100000 property_id
         (hostBytes e 4 SL_CPC_STATE_CLOSED), .endpointState)
    else
      ({ s with events := s.events ++ [.fatal] }, .fatalInvalidProp)
  else
    (s, .ignored)

/-- `sl_cpc_system_reset_system_endpoint`: send an
`UNNUMBERED_RESET_COMMAND`, flush, pop and free every pending command with a
warning (without touching its timer), close and reopen the endpoint. -/
def sl_cpc_system_reset_system_endpoint (s : SysState) : SysState :=
  { s with
    commands := []
    events := s.events
      ++ [.coreWrite .unnumberedResetCommand []]
      ++ s.commands.map (fun _ => Event.warn)
      ++ [.endpointClosed, .endpointOpened] }

/-! ### Mode A dispatchers (`src/server_core/server/system/system.c`)

The legacy Unnumbered-Poll implementation duplicates the final-handler
helpers verbatim; its reply dispatcher differs from Mode B's in that an
unmatched reply falls off the search loop with no warning, and its
`on_final_reset` does not clear `ignore_reset_reason`. -/

/-- `on_reply` of the Mode A file. -/
def modeA_on_reply (e : Endian) (s : SysState) (answer : List Nat) :
    SysState × ReplyOutcome :=
  let reply := parseFrame answer
  if reply.length ≠ subSizeT answer.length SIZEOF_SL_CPC_SYSTEM_CMD then
    ({ s with events := s.events ++ [.fatal] }, .fatalMalformed)
  else
    match s.commands.find? (fun h => h.command_seq == reply.command_seq) with
    | none => (s, .silentDrop)
    | some h =>
      let s1 := { s with
        registeredTimerFds := closeFd s.registeredTimerFds h.timer_fd
        liveTimerFds := closeFd s.liveTimerFds h.timer_fd }
      let finish := fun (s2 : SysState) (args : CallbackArgs) =>
        ({ s2 with
           commands := s2.commands.eraseP (fun g => g.command_seq == reply.command_seq)
           events := s2.events ++ [.finalCallback h.hid args] }, ReplyOutcome.handled)
      if reply.command_id = CMD_SYSTEM_NOOP then
        finish s1 (on_final_noop h)
      else if reply.command_id = CMD_SYSTEM_RESET then
        finish s1 (on_final_reset e h reply)
      else if reply.command_id = CMD_SYSTEM_PROP_VALUE_IS then
        finish s1 (on_final_property_is e h reply)
      else
        ({ s1 with events := s1.events ++ [.fatal] }, .fatalIllegal)

/-- `on_unsolicited` of the Mode A file: after the length check only the
`PROP_VALUE_IS` / `PROP_LAST_STATUS` combination does anything; everything
else is ignored without any log or abort. -/
def modeA_on_unsolicited (e : Endian) (s : SysState) (data : List Nat) :
    SysState × UnsolOutcome :=
  let reply := parseFrame data
  if reply.length ≠ subSizeT data.length SIZEOF_SL_CPC_SYSTEM_CMD then
    ({ s with events := s.events ++ [.fatal] }, .fatalMalformed)
  else if reply.command_id = CMD_SYSTEM_PROP_VALUE_IS then
    let property_id := hostRead e (reply.payload.take 4)
    if property_id = PROP_LAST_STATUS then
      let status := hostRead e ((reply.payload.drop 4).take 4)
      ({ s with
         events := s.events
           ++ List.replicate s.prop_last_status_callbacks (.lastStatusFanout status) },
       .lastStatus)
    else
      (s, .ignored)
  else
    (s, .ignored)

/-! ### Event-loop traces -/

/-- One externally triggered entry into the Mode B core: an issuer call, an
inbound hook from Core, a timer expiration, or the reset controller. -/
inductive Op
  | noop (retries timeout : Nat)
  | reboot (retries timeout : Nat)
  | propertyGet (property_id retries timeout : Nat)
  | propertySet (retries timeout property_id : Nat) (value : List Nat)
  | reply (answer : List Nat)
  | pollAck (acked : SlCpcSystemCmd)
  | timerExpired (hid : Nat)
  | resetEndpoint
  | unsolicited (data : List Nat)
  | registerListener
deriving DecidableEq, Repr

/-- Sequential delivery of one event on the single-threaded loop. -/
def step (e : Endian) (env : Env) (s : SysState) : Op → SysState
  | .noop r t => sl_cpc_system_cmd_noop s r t
  | .reboot r t => sl_cpc_system_cmd_reboot s r t
  | .propertyGet p r t => sl_cpc_system_cmd_property_get s p r t
  | .propertySet r t p v => sl_cpc_system_cmd_property_set e s r t p v
  | .reply a => (on_reply e s a).1
  | .pollAck f => sl_cpc_system_cmd_poll_acknowledged s f
  | .timerExpired hid => on_timer_expired e s hid
  | .resetEndpoint => sl_cpc_system_reset_system_endpoint s
  | .unsolicited d => (on_unsolicited e env s d).1
  | .registerListener => registerPropLastStatusCallback s

/-- Run a trace of events from the freshly initialized module state. -/
def run (e : Endian) (env : Env) (ops : List Op) : SysState :=
  ops.foldl (step e env) sl_cpc_system_init

/-- A concrete environment for closed evaluations: every endpoint has
listeners and is closed. -/
def env0 : Env :=
  { listener_list_empty := fun _ => false
    endpoint_state := fun _ => .closed }

/-- A concrete environment in which every endpoint has listeners and is
open. -/
def env1 : Env :=
  { listener_list_empty := fun _ => false
    endpoint_state := fun _ => .opened }

/-- The `property_id` argument of a property final-handler invocation. -/
def CallbackArgs.propId : CallbackArgs → Option Nat
  | .propertyArgs p _ _ _ => some p
  | _ => none

/-- Sequence-number bookkeeping invariant: the 8-bit counter mirrors the
total issuance count, every live handle's `command_seq` is its issuance
index reduced mod 256, and no two live handles share an issuance index. -/
def SeqInv (s : SysState) : Prop :=
  s.next_command_seq = s.issued_total % 256
  ∧ (∀ h ∈ s.commands, h.issue_idx < s.issued_total ∧ h.command_seq = h.issue_idx % 256)
  ∧ (s.commands.map (fun h => h.issue_idx)).Nodup

/-- Repeated expiration of the retransmission timer belonging to the handle
identified by `hid` (no reply ever arrives). -/
def expireLoop (e : Endian) (hid : Nat) : Nat → SysState → SysState
  | 0, s => s
  | k + 1, s => expireLoop e hid k (on_timer_expired e s hid)

/-- Number of Information-Poll transmissions of the serialized buffer `c` in
a trace. -/
def countWrites (events : List Event) (c : SlCpcSystemCmd) : Nat :=
  (events.filter (fun ev => ev == Event.coreWrite .informationPoll c.serialize)).length

/-- Number of final-handler invocations for handle identity `hid` in a
trace. -/
def countCallbacks (events : List Event) (hid : Nat) : Nat :=
  (events.filter (fun ev =>
    match ev with
    | .finalCallback i _ => i == hid
    | _ => false)).length

/-- The timeout arguments delivered for a handle whose command id is one of
the four issuable kinds. -/
def timeoutArgsOf (e : Endian) (h : CommandHandle) : CallbackArgs :=
  if h.command.command_id = CMD_SYSTEM_NOOP then .noopArgs .timeout
  else if h.command.command_id = CMD_SYSTEM_RESET then .resetArgs .timeout STATUS_FAILURE
  else .propertyArgs (hostRead e (h.command.payload.take 4)) none 0 .timeout

/-- A default handle value used only as the fallback argument of `List.getD`
in closed statements. -/
def dummyHandle : CommandHandle :=
  { command_seq := 0
    command := { command_id := 0, command_seq := 0, length := 0, payload := [] }
    retry_count := 0
    retry_timeout_us := 0
    error_status := .ok
    timer_fd := none
    hid := 0
    issue_idx := 0 }

/-- 257 noop issuances with no completion in between: one more than the
8-bit sequence counter can distinguish. -/
def seqWrapTrace : List Op := List.replicate 257 (Op.noop 1 100)

/-- The module state after `seqWrapTrace`. -/
def seqWrapState : SysState := run .little env0 seqWrapTrace

/-- Issue a noop, let the secondary acknowledge its poll (arming the timer),
then reset the system endpoint while the command is still in flight. -/
def resetDrainTrace : List Op :=
  [Op.noop 5 100000,
   Op.pollAck { command_id := CMD_SYSTEM_NOOP, command_seq := 0, length := 0, payload := [] },
   Op.resetEndpoint]

/-- The same prefix, but the command completes through the reply path
instead of being drained. -/
def replyCleanupTrace : List Op :=
  [Op.noop 5 100000,
   Op.pollAck { command_id := CMD_SYSTEM_NOOP, command_seq := 0, length := 0, payload := [] },
   Op.reply [CMD_SYSTEM_NOOP, 0, 0]]

/-! ## Supporting lemmas -/

theorem length_toLEBytes (w v : Nat) : (toLEBytes w v).length = w := by
  induction w generalizing v with
  | zero => rfl
  | succ w ih => simp [toLEBytes, ih]

theorem mem_toLEBytes_lt {w v b : Nat} (h : b ∈ toLEBytes w v) : b < 256 := by
  induction w generalizing v with
  | zero => simp [toLEBytes] at h
  | succ w ih =>
    simp only [toLEBytes, List.mem_cons] at h
    rcases h with h | h
    · exact h ▸ Nat.mod_lt _ (by norm_num)
    · exact ih h

theorem fromLEBytes_toLEBytes (w v : Nat) :
    fromLEBytes (toLEBytes w v) = v % 256 ^ w := by
  induction w generalizing v with
  | zero => simp [toLEBytes, fromLEBytes, Nat.mod_one]
  | succ w ih =>
    have hK : 0 < (256 : Nat) ^ w := Nat.pos_pow_of_pos _ (by norm_num)
    have hq : v / 256 % 256 ^ w < 256 ^ w := Nat.mod_lt _ hK
    have hr : v % 256 < 256 := Nat.mod_lt _ (by norm_num)
    simp only [toLEBytes, fromLEBytes, ih]
    have h256 : (256 : Nat) ^ (w + 1) = 256 * 256 ^ w := by
      rw [pow_succ, Nat.mul_comm]
    rw [h256]
    conv_rhs => rw [show v = 256 * (v / 256) + v % 256 by omega]
    rw [Nat.add_mod, Nat.mul_mod_mul_left,
      Nat.mod_eq_of_lt (show v % 256 < 256 * 256 ^ w by omega),
      Nat.mod_eq_of_lt (show 256 * (v / 256 % 256 ^ w) + v % 256 < 256 * 256 ^ w by omega)]
    omega

theorem toLEBytes_fromLEBytes {bs : List Nat} (hb : ∀ b ∈ bs, b < 256) :
    toLEBytes bs.length (fromLEBytes bs) = bs := by
  induction bs with
  | nil => rfl
  | cons b bs ih =>
    have hblt : b < 256 := hb b (List.mem_cons_self b bs)
    simp only [List.length_cons, toLEBytes, fromLEBytes]
    have h1 : (b + 256 * fromLEBytes bs) % 256 = b := by omega
    have h2 : (b + 256 * fromLEBytes bs) / 256 = fromLEBytes bs := by omega
    rw [h1, h2, ih fun x hx => hb x (List.mem_cons_of_mem b hx)]

theorem hostRead_hostBytes (e : Endian) (w v : Nat) :
    hostRead e (hostBytes e w v) = v % 256 ^ w := by
  cases e <;>
    simp [hostRead, hostBytes, List.reverse_reverse, fromLEBytes_toLEBytes]

theorem length_hostBytes (e : Endian) (w v : Nat) :
    (hostBytes e w v).length = w := by
  cases e <;> simp [hostBytes, length_toLEBytes]

theorem leToCpu_hostRead (e : Endian) {bs : List Nat} (hlen : bs.length = 4)
    (hb : ∀ b ∈ bs, b < 256) : leToCpu e 4 (hostRead e bs) = fromLEBytes bs := by
  cases e with
  | little => rfl
  | big =>
    simp only [leToCpu, hostRead, bswap]
    have hlen' : bs.reverse.length = 4 := by simp [hlen]
    have hb' : ∀ b ∈ bs.reverse, b < 256 := fun b hbmem => hb b (List.mem_reverse.mp hbmem)
    rw [show (4 : Nat) = bs.reverse.length from hlen'.symm, toLEBytes_fromLEBytes hb',
      List.reverse_reverse]

theorem propertySetValueBytes_hostBytes (e : Endian) {w v : Nat}
    (hw : w = 1 ∨ w = 2 ∨ w = 4 ∨ w = 8) (hv : v < 256 ^ w) :
    propertySetValueBytes e (hostBytes e w v) = toLEBytes w v := by
  have hlen : (hostBytes e w v).length = w := length_hostBytes e w v
  have hread : hostRead e (hostBytes e w v) = v := by
    rw [hostRead_hostBytes, Nat.mod_eq_of_lt hv]
  rcases hw with rfl | rfl | rfl | rfl
  · cases e with
    | little => rfl
    | big => simp [propertySetValueBytes, hostBytes, toLEBytes]
  · simp [propertySetValueBytes, hlen, hread]
  · simp [propertySetValueBytes, hlen, hread]
  · simp [propertySetValueBytes, hlen, hread]

theorem parseFrame_length_lt {answer : List Nat} (hbytes : ByteOk answer) :
    (parseFrame answer).length < 256 := by
  show answer.getD 2 0 < 256
  rcases Nat.lt_or_ge 2 answer.length with h | h
  · have hg : answer.getD 2 0 = answer[2] := List.getD_eq_getElem answer 0 h
    rw [hg]
    exact hbytes _ (List.getElem_mem h)
  · rw [List.getD_eq_default]
    · norm_num
    · exact h

theorem lengthCheck_iff {answer : List Nat} (hbytes : ByteOk answer)
    (hlen : answer.length < 2 ^ 32) :
    (parseFrame answer).length = subSizeT answer.length SIZEOF_SL_CPC_SYSTEM_CMD
      ↔ answer.length = SIZEOF_SL_CPC_SYSTEM_CMD + (parseFrame answer).length := by
  have hL : (parseFrame answer).length < 256 := parseFrame_length_lt hbytes
  unfold subSizeT SIZEOF_SL_CPC_SYSTEM_CMD
  omega

theorem take_length_append {α : Type} (l₁ l₂ : List α) (n : Nat) (h : l₁.length = n) :
    (l₁ ++ l₂).take n = l₁ := by
  subst h
  simp

theorem drop_length_append {α : Type} (l₁ l₂ : List α) (n : Nat) (h : l₁.length = n) :
    (l₁ ++ l₂).drop n = l₂ := by
  subst h
  simp

theorem decode_toLE4_head (e : Endian) (pid : Nat) (rest : List Nat)
    (hpid : pid < 2 ^ 32) :
    leToCpu e 4 (hostRead e ((toLEBytes 4 pid ++ rest).take 4)) = pid := by
  rw [take_length_append _ _ _ (length_toLEBytes 4 pid),
    leToCpu_hostRead e (length_toLEBytes 4 pid) (fun b hb => mem_toLEBytes_lt hb),
    fromLEBytes_toLEBytes]
  have h32 : (256 : Nat) ^ 4 = 2 ^ 32 := by norm_num
  rw [h32, Nat.mod_eq_of_lt hpid]

/-! ## Claims -/

/-- C2: for every `(property_id, value)` with a value width in {1, 2, 4, 8},
the property-set issuer encodes the payload as `le32(property_id)` followed
by the value in little-endian order, and decoding the corresponding
property-is payload via `on_final_property_is` recovers the original
property id, the original value bytes with `value_len = length - 4`, and the
original numeric value under little-endian interpretation.  In particular
`property_set(property_id = 0x0A, value = u32 0x12345678, len = 4)` yields
the payload bytes `0A 00 00 00 78 56 34 12` after the 3-byte header. -/
theorem C2_property_codec_roundtrip (e : Endian) (s : SysState)
    (rc rt pid v w : Nat) (hw : w = 1 ∨ w = 2 ∨ w = 4 ∨ w = 8)
    (hpid : pid < 2 ^ 32) (hv : v < 256 ^ w) :
    (∃ h', (sl_cpc_system_cmd_property_set e s rc rt pid (hostBytes e w v)).commands.getLast?
          = some h'
        ∧ h'.command.command_id = CMD_SYSTEM_PROP_VALUE_SET
        ∧ h'.command.payload = toLEBytes 4 pid ++ toLEBytes w v
        ∧ h'.command.length = 4 + w
        ∧ on_final_property_is e h'
            { command_id := CMD_SYSTEM_PROP_VALUE_IS, command_seq := h'.command_seq,
              length := 4 + w, payload := toLEBytes 4 pid ++ toLEBytes w v }
            = .propertyArgs pid (some (toLEBytes w v)) w h'.error_status
        ∧ fromLEBytes (toLEBytes w v) = v)
    ∧ (sl_cpc_system_cmd_property_set .little sl_cpc_system_init 5 100 0x0A
         (hostBytes .little 4 0x12345678)).commands.map (fun g => g.command.payload)
        = [[0x0A, 0x00, 0x00, 0x00, 0x78, 0x56, 0x34, 0x12]] := by
  constructor
  · have hw8 : w ≤ 8 := by rcases hw with rfl | rfl | rfl | rfl <;> norm_num
    have hlen : (hostBytes e w v).length = w := length_hostBytes e w v
    have hne : ¬ (hostBytes e w v).length = 0 := by omega
    have hval : propertySetValueBytes e (hostBytes e w v) = toLEBytes w v :=
      propertySetValueBytes_hostBytes e hw hv
    refine ⟨{ command_seq := s.next_command_seq,
              command := { command_id := CMD_SYSTEM_PROP_VALUE_SET,
                           command_seq := s.next_command_seq,
                           length := (SIZEOF_SL_CPC_PROPERTY_ID + (hostBytes e w v).length) % 256,
                           payload := toLEBytes 4 pid
                             ++ propertySetValueBytes e (hostBytes e w v) },
              retry_count := rc, retry_timeout_us := rt, error_status := .ok,
              timer_fd := none, hid := s.next_hid, issue_idx := s.issued_total },
      ?_, rfl, ?_, ?_, ?_, ?_⟩
    · simp [sl_cpc_system_cmd_property_set, hne, write_command]
    · simp [hval]
    · show (SIZEOF_SL_CPC_PROPERTY_ID + (hostBytes e w v).length) % 256 = 4 + w
      rw [hlen]
      show (4 + w) % 256 = 4 + w
      omega
    · show on_final_property_is e _ _ = _
      unfold on_final_property_is
      rw [decode_toLE4_head e pid _ hpid,
        drop_length_append _ _ _ (length_toLEBytes 4 pid)]
      show CallbackArgs.propertyArgs _ _ (subSizeT (4 + w) SIZEOF_SL_CPC_PROPERTY_ID) _ = _
      have hsub : subSizeT (4 + w) SIZEOF_SL_CPC_PROPERTY_ID = w := by
        unfold subSizeT SIZEOF_SL_CPC_PROPERTY_ID
        omega
      rw [hsub]
    · rw [fromLEBytes_toLEBytes, Nat.mod_eq_of_lt hv]
  · decide

/-- Witness for C2 on a big-endian host at `property_id = 0x0A`,
`value = 0x12345678`, width 4 (together with the closed concrete-bytes
conjunct). -/
theorem C2_property_codec_roundtrip_witness :
    (∃ h', (sl_cpc_system_cmd_property_set .big sl_cpc_system_init 1 1 0x0A
          (hostBytes .big 4 0x12345678)).commands.getLast? = some h'
        ∧ h'.command.command_id = CMD_SYSTEM_PROP_VALUE_SET
        ∧ h'.command.payload = toLEBytes 4 0x0A ++ toLEBytes 4 0x12345678
        ∧ h'.command.length = 4 + 4
        ∧ on_final_property_is .big h'
            { command_id := CMD_SYSTEM_PROP_VALUE_IS, command_seq := h'.command_seq,
              length := 4 + 4, payload := toLEBytes 4 0x0A ++ toLEBytes 4 0x12345678 }
            = .propertyArgs 0x0A (some (toLEBytes 4 0x12345678)) 4 h'.error_status
        ∧ fromLEBytes (toLEBytes 4 0x12345678) = 0x12345678)
    ∧ (sl_cpc_system_cmd_property_set .little sl_cpc_system_init 5 100 0x0A
         (hostBytes .little 4 0x12345678)).commands.map (fun g => g.command.payload)
        = [[0x0A, 0x00, 0x00, 0x00, 0x78, 0x56, 0x34, 0x12]] :=
  C2_property_codec_roundtrip .big sl_cpc_system_init 1 1 0x0A 0x12345678 4
    (by norm_num) (by norm_num) (by norm_num)

/-- C8: every inbound frame accepted by the reply dispatcher or the
unsolicited dispatcher (in either implementation) satisfies
`buffer_length - 3 == header.length`; a frame violating the check is fatal
in every state, before any descriptor lookup or listener dispatch — the
resulting state is the input state with only a fatal event appended,
independent of the command table and the listener lists. -/
theorem C8_length_sanity (e : Endian) (env : Env) (s : SysState) (answer : List Nat)
    (hbytes : ByteOk answer) (hlen : answer.length < 2 ^ 32) :
    (answer.length ≠ SIZEOF_SL_CPC_SYSTEM_CMD + (parseFrame answer).length →
        on_reply e s answer = ({ s with events := s.events ++ [.fatal] }, .fatalMalformed)
      ∧ on_unsolicited e env s answer
          = ({ s with events := s.events ++ [.fatal] }, .fatalMalformed)
      ∧ modeA_on_reply e s answer = ({ s with events := s.events ++ [.fatal] }, .fatalMalformed)
      ∧ modeA_on_unsolicited e s answer
          = ({ s with events := s.events ++ [.fatal] }, .fatalMalformed))
    ∧ ((on_reply e s answer).2 ≠ .fatalMalformed →
        answer.length = SIZEOF_SL_CPC_SYSTEM_CMD + (parseFrame answer).length)
    ∧ ((on_unsolicited e env s answer).2 ≠ .fatalMalformed →
        answer.length = SIZEOF_SL_CPC_SYSTEM_CMD + (parseFrame answer).length)
    ∧ ((modeA_on_reply e s answer).2 ≠ .fatalMalformed →
        answer.length = SIZEOF_SL_CPC_SYSTEM_CMD + (parseFrame answer).length)
    ∧ ((modeA_on_unsolicited e s answer).2 ≠ .fatalMalformed →
        answer.length = SIZEOF_SL_CPC_SYSTEM_CMD + (parseFrame answer).length) := by
  have hiff := lengthCheck_iff hbytes hlen
  by_cases hcheck :
      (parseFrame answer).length = subSizeT answer.length SIZEOF_SL_CPC_SYSTEM_CMD
  · have heq := hiff.mp hcheck
    exact ⟨fun hne => absurd heq hne, fun _ => heq, fun _ => heq, fun _ => heq, fun _ => heq⟩
  · have h1 : on_reply e s answer = ({ s with events := s.events ++ [.fatal] }, .fatalMalformed) := by
      simp [on_reply, hcheck]
    have h2 : on_unsolicited e env s answer
        = ({ s with events := s.events ++ [.fatal] }, .fatalMalformed) := by
      simp [on_unsolicited, hcheck]
    have h3 : modeA_on_reply e s answer
        = ({ s with events := s.events ++ [.fatal] }, .fatalMalformed) := by
      simp [modeA_on_reply, hcheck]
    have h4 : modeA_on_unsolicited e s answer
        = ({ s with events := s.events ++ [.fatal] }, .fatalMalformed) := by
      simp [modeA_on_unsolicited, hcheck]
    refine ⟨fun _ => ⟨h1, h2, h3, h4⟩, ?_, ?_, ?_, ?_⟩
    · intro hout
      exact (hout (by rw [h1])).elim
    · intro hout
      exact (hout (by rw [h2])).elim
    · intro hout
      exact (hout (by rw [h3])).elim
    · intro hout
      exact (hout (by rw [h4])).elim

/-- Witness for C8 at a concrete malformed frame (a 2-byte buffer whose
header claims length 0 fails the check because the `uint32`/`size_t`
subtraction wraps) and at a concrete accepted frame. -/
theorem C8_length_sanity_witness :
    (on_reply .little sl_cpc_system_init [CMD_SYSTEM_NOOP, 0]
        = ({ sl_cpc_system_init with
             events := sl_cpc_system_init.events ++ [.fatal] }, .fatalMalformed))
    ∧ ((on_reply .little sl_cpc_system_init [CMD_SYSTEM_NOOP, 0, 0]).2
          ≠ ReplyOutcome.fatalMalformed →
        (3 : Nat) = SIZEOF_SL_CPC_SYSTEM_CMD
          + (parseFrame [CMD_SYSTEM_NOOP, 0, 0]).length) := by
  constructor
  · exact ((C8_length_sanity .little env0 sl_cpc_system_init [CMD_SYSTEM_NOOP, 0]
      (by decide) (by decide)).1 (by decide)).1
  · exact (C8_length_sanity .little env0 sl_cpc_system_init [CMD_SYSTEM_NOOP, 0, 0]
      (by decide) (by decide)).2.1

/-- C9: on an unsolicited `PROP_VALUE_IS` whose property id lies in the
endpoint-state family, if the decoded endpoint has registered listeners and
is currently OPEN, the dispatcher first puts it in error with reason
DESTINATION_UNREACHABLE and then issues a `property_set` to the same
property id with retry count 5, a 100 ms (100000 us) per-attempt timeout,
and a 4-byte CLOSED value. -/
theorem C9_endpoint_state_unsolicited_close (e : Endian) (env : Env) (s : SysState)
    (data : List Nat)
    (hcheck : (parseFrame data).length = subSizeT data.length SIZEOF_SL_CPC_SYSTEM_CMD)
    (hcmd : (parseFrame data).command_id = CMD_SYSTEM_PROP_VALUE_IS)
    (hlo : PROP_ENDPOINT_STATE_0 ≤ hostRead e ((parseFrame data).payload.take 4))
    (hhi : hostRead e ((parseFrame data).payload.take 4) ≤ PROP_ENDPOINT_STATE_255)
    (hlisteners : env.listener_list_empty
        (hostRead e ((parseFrame data).payload.take 4) - PROP_ENDPOINT_STATE_0) = false)
    (hopen : env.endpoint_state
        (hostRead e ((parseFrame data).payload.take 4) - PROP_ENDPOINT_STATE_0) = .opened) :
    on_unsolicited e env s data
      = (sl_cpc_system_cmd_property_set e
          { s with events := s.events
              ++ [.setEndpointInError
                    (hostRead e ((parseFrame data).payload.take 4) - PROP_ENDPOINT_STATE_0)
                    .errorDestinationUnreachable] }
          5 100000 (hostRead e ((parseFrame data).payload.take 4))
          (hostBytes e 4 SL_CPC_STATE_CLOSED), .endpointState)
    ∧ (((on_unsolicited e env s data).1.commands.getLast?).map
          (fun h' => (h'.retry_count, h'.retry_timeout_us, h'.command.command_id,
            h'.command.payload))
        = some (5, 100000, CMD_SYSTEM_PROP_VALUE_SET,
            toLEBytes 4 (hostRead e ((parseFrame data).payload.take 4))
              ++ toLEBytes 4 SL_CPC_STATE_CLOSED)) := by
  have hne0 : ¬ hostRead e ((parseFrame data).payload.take 4) = PROP_LAST_STATUS := by
    unfold PROP_LAST_STATUS
    unfold PROP_ENDPOINT_STATE_0 at hlo
    omega
  have hval : propertySetValueBytes e (hostBytes e 4 SL_CPC_STATE_CLOSED)
      = toLEBytes 4 SL_CPC_STATE_CLOSED :=
    propertySetValueBytes_hostBytes e (by norm_num) (by norm_num [SL_CPC_STATE_CLOSED])
  have hne4 : ¬ (hostBytes e 4 SL_CPC_STATE_CLOSED).length = 0 := by
    rw [length_hostBytes]
    norm_num
  have hmain : on_unsolicited e env s data
      = (sl_cpc_system_cmd_property_set e
          { s with events := s.events
              ++ [.setEndpointInError
                    (hostRead e ((parseFrame data).payload.take 4) - PROP_ENDPOINT_STATE_0)
                    .errorDestinationUnreachable] }
          5 100000 (hostRead e ((parseFrame data).payload.take 4))
          (hostBytes e 4 SL_CPC_STATE_CLOSED), .endpointState) := by
    simp [on_unsolicited, hcheck, hcmd, hne0, hlo, hhi, hlisteners, hopen]
  refine ⟨hmain, ?_⟩
  rw [hmain]
  simp [sl_cpc_system_cmd_property_set, hne4, write_command, hval]

/-- Witness for C9: an unsolicited frame for endpoint 7's state property,
little-endian host, every endpoint open with listeners. -/
theorem C9_endpoint_state_unsolicited_close_witness :
    on_unsolicited .little env1 sl_cpc_system_init
        [0x05, 0x00, 0x08, 0x07, 0x43, 0x00, 0x00, 0x01, 0x00, 0x00, 0x00]
      = (sl_cpc_system_cmd_property_set .little
          { sl_cpc_system_init with events := sl_cpc_system_init.events
              ++ [.setEndpointInError
                    (hostRead .little ((parseFrame
                      [0x05, 0x00, 0x08, 0x07, 0x43, 0x00, 0x00, 0x01, 0x00, 0x00,
                        0x00]).payload.take 4) - PROP_ENDPOINT_STATE_0)
                    .errorDestinationUnreachable] }
          5 100000
          (hostRead .little ((parseFrame
            [0x05, 0x00, 0x08, 0x07, 0x43, 0x00, 0x00, 0x01, 0x00, 0x00,
              0x00]).payload.take 4))
          (hostBytes .little 4 SL_CPC_STATE_CLOSED), .endpointState)
    ∧ (((on_unsolicited .little env1 sl_cpc_system_init
          [0x05, 0x00, 0x08, 0x07, 0x43, 0x00, 0x00, 0x01, 0x00, 0x00,
            0x00]).1.commands.getLast?).map
          (fun h' => (h'.retry_count, h'.retry_timeout_us, h'.command.command_id,
            h'.command.payload))
        = some (5, 100000, CMD_SYSTEM_PROP_VALUE_SET,
            toLEBytes 4 (hostRead .little ((parseFrame
              [0x05, 0x00, 0x08, 0x07, 0x43, 0x00, 0x00, 0x01, 0x00, 0x00,
                0x00]).payload.take 4))
              ++ toLEBytes 4 SL_CPC_STATE_CLOSED)) :=
  C9_endpoint_state_unsolicited_close .little env1 sl_cpc_system_init
    [0x05, 0x00, 0x08, 0x07, 0x43, 0x00, 0x00, 0x01, 0x00, 0x00, 0x00]
    (by decide) (by decide) (by decide) (by decide) (by decide) (by decide)

/-- C6 (amended): a reply whose `command_seq` matches no live descriptor is
dropped without being fatal in both implementations; the Mode B
implementation logs a warning, while the Mode A implementation drops it
silently, with the state completely unchanged. -/
theorem C6_unmatched_reply_drop (e : Endian) (s : SysState) (answer : List Nat)
    (hcheck : (parseFrame answer).length = subSizeT answer.length SIZEOF_SL_CPC_SYSTEM_CMD)
    (hnone : ∀ g ∈ s.commands, g.command_seq ≠ (parseFrame answer).command_seq) :
    on_reply e s answer = ({ s with events := s.events ++ [.warn] }, .warnedDrop)
    ∧ modeA_on_reply e s answer = (s, .silentDrop) := by
  have hfind : s.commands.find?
      (fun h => h.command_seq == (parseFrame answer).command_seq) = none := by
    rw [List.find?_eq_none]
    intro g hg
    simpa using hnone g hg
  constructor
  · simp [on_reply, hcheck, hfind]
  · simp [modeA_on_reply, hcheck, hfind]

/-- Witness for C6 at a concrete unmatched noop reply against the freshly
initialized (empty) command table. -/
theorem C6_unmatched_reply_drop_witness :
    on_reply .little sl_cpc_system_init [CMD_SYSTEM_NOOP, 0, 0]
      = ({ sl_cpc_system_init with
           events := sl_cpc_system_init.events ++ [.warn] }, .warnedDrop)
    ∧ modeA_on_reply .little sl_cpc_system_init [CMD_SYSTEM_NOOP, 0, 0]
      = (sl_cpc_system_init, .silentDrop) :=
  C6_unmatched_reply_drop .little sl_cpc_system_init [CMD_SYSTEM_NOOP, 0, 0]
    (by decide) (by decide)

/-- C6 counterexample: the claim as stated says the Mode A reply handler
also logs a warning when no descriptor matches; on the concrete frame
`[NOOP, seq 0, length 0]` against an empty command table the Mode A handler
returns with no warning event appended and a silent-drop outcome. -/
theorem C6_counterexample :
    modeA_on_reply .little sl_cpc_system_init [CMD_SYSTEM_NOOP, 0, 0]
      = (sl_cpc_system_init, .silentDrop)
    ∧ (modeA_on_reply .little sl_cpc_system_init [CMD_SYSTEM_NOOP, 0, 0]).1.events
      = sl_cpc_system_init.events
    ∧ ReplyOutcome.silentDrop ≠ ReplyOutcome.warnedDrop := by decide

/-- C7 (amended): an unsolicited frame that passes the length check and
whose `command_id` is not `PROP_VALUE_IS` is silently ignored — not fatal —
by both implementations: the state is returned unchanged. -/
theorem C7_unsolicited_non_prop_value_is_ignored (e : Endian) (env : Env)
    (s : SysState) (data : List Nat)
    (hcheck : (parseFrame data).length = subSizeT data.length SIZEOF_SL_CPC_SYSTEM_CMD)
    (hcmd : (parseFrame data).command_id ≠ CMD_SYSTEM_PROP_VALUE_IS) :
    on_unsolicited e env s data = (s, .ignored)
    ∧ modeA_on_unsolicited e s data = (s, .ignored) := by
  constructor
  · simp [on_unsolicited, hcheck, hcmd]
  · simp [modeA_on_unsolicited, hcheck, hcmd]

/-- Witness for C7 at a concrete unsolicited frame carrying the NOOP
command id. -/
theorem C7_unsolicited_non_prop_value_is_ignored_witness :
    on_unsolicited .little env0 sl_cpc_system_init [CMD_SYSTEM_NOOP, 0, 0]
      = (sl_cpc_system_init, .ignored)
    ∧ modeA_on_unsolicited .little sl_cpc_system_init [CMD_SYSTEM_NOOP, 0, 0]
      = (sl_cpc_system_init, .ignored) :=
  C7_unsolicited_non_prop_value_is_ignored .little env0 sl_cpc_system_init
    [CMD_SYSTEM_NOOP, 0, 0] (by decide) (by decide)

/-- C7 counterexample: the claim as stated says a well-formed unsolicited
frame with `command_id ≠ PROP_VALUE_IS` terminates the process fatally and
is never silently ignored; on the concrete frame `[NOOP, seq 0, length 0]`
both dispatchers return the state unchanged (no fatal event) with an
ignored outcome. -/
theorem C7_counterexample :
    on_unsolicited .little env0 sl_cpc_system_init [CMD_SYSTEM_NOOP, 0, 0]
      = (sl_cpc_system_init, .ignored)
    ∧ modeA_on_unsolicited .little sl_cpc_system_init [CMD_SYSTEM_NOOP, 0, 0]
      = (sl_cpc_system_init, .ignored)
    ∧ UnsolOutcome.ignored ≠ UnsolOutcome.fatalInvalidProp
    ∧ UnsolOutcome.ignored ≠ UnsolOutcome.fatalMalformed := by decide

/-- C5: in Mode B no issuer arms a timer at issue time — the freshly pushed
handle has no timer fd and the sets of open and epoll-registered timer fds
are unchanged by `noop`, `reboot`, `property_get` and `property_set`; a
timer fd is created and registered exactly when `poll_acknowledged` fires
for the command's sequence number with `error_status` OK; and a poll-ack
hitting a command already marked IN_PROGRESS (after a retransmit) only
rearms the existing timer: nothing is created, registered, or replaced. -/
theorem C5_mode_b_timer_armed_only_on_poll_ack (e : Endian) (s : SysState)
    (acked : SlCpcSystemCmd) :
    (∀ r t, ((sl_cpc_system_cmd_noop s r t).commands.getLast?).map
          CommandHandle.timer_fd = some none
        ∧ (sl_cpc_system_cmd_noop s r t).liveTimerFds = s.liveTimerFds
        ∧ (sl_cpc_system_cmd_noop s r t).registeredTimerFds = s.registeredTimerFds)
    ∧ (∀ r t, ((sl_cpc_system_cmd_reboot s r t).commands.getLast?).map
          CommandHandle.timer_fd = some none
        ∧ (sl_cpc_system_cmd_reboot s r t).liveTimerFds = s.liveTimerFds
        ∧ (sl_cpc_system_cmd_reboot s r t).registeredTimerFds = s.registeredTimerFds)
    ∧ (∀ p r t, ((sl_cpc_system_cmd_property_get s p r t).commands.getLast?).map
          CommandHandle.timer_fd = some none
        ∧ (sl_cpc_system_cmd_property_get s p r t).liveTimerFds = s.liveTimerFds
        ∧ (sl_cpc_system_cmd_property_get s p r t).registeredTimerFds
            = s.registeredTimerFds)
    ∧ (∀ r t p value, value.length ≠ 0 →
        ((sl_cpc_system_cmd_property_set e s r t p value).commands.getLast?).map
          CommandHandle.timer_fd = some none
        ∧ (sl_cpc_system_cmd_property_set e s r t p value).liveTimerFds = s.liveTimerFds
        ∧ (sl_cpc_system_cmd_property_set e s r t p value).registeredTimerFds
            = s.registeredTimerFds)
    ∧ (∀ h, s.commands.find? (fun g => g.command_seq == acked.command_seq) = some h →
        (h.error_status = .ok →
          sl_cpc_system_cmd_poll_acknowledged s acked
            = { s with
                nextFd := s.nextFd + 1
                liveTimerFds := s.liveTimerFds ++ [s.nextFd]
                registeredTimerFds := s.registeredTimerFds ++ [s.nextFd]
                commands := updateFirst (fun g => g.command_seq == acked.command_seq)
                  (fun g => { g with timer_fd := some s.nextFd }) s.commands
                events := s.events ++ [.timerArmed (some s.nextFd)] })
        ∧ (h.error_status = .inProgress →
          sl_cpc_system_cmd_poll_acknowledged s acked
            = { s with events := s.events ++ [.timerArmed h.timer_fd] })) := by
  refine ⟨?_, ?_, ?_, ?_, ?_⟩
  · intro r t
    refine ⟨?_, rfl, rfl⟩
    simp [sl_cpc_system_cmd_noop, write_command]
  · intro r t
    refine ⟨?_, rfl, rfl⟩
    simp [sl_cpc_system_cmd_reboot, write_command]
  · intro p r t
    refine ⟨?_, rfl, rfl⟩
    simp [sl_cpc_system_cmd_property_get, write_command]
  · intro r t p value hv
    refine ⟨?_, ?_, ?_⟩ <;>
      simp [sl_cpc_system_cmd_property_set, hv, write_command]
  · intro h hfind
    constructor
    · intro hok
      simp [sl_cpc_system_cmd_poll_acknowledged, hfind, hok]
    · intro hip
      simp [sl_cpc_system_cmd_poll_acknowledged, hfind, hip]

/-- Witness for C5: one noop in flight (sequence 0, status OK), then its
poll-ack; timer fd 0 is created and registered only at the ack. -/
theorem C5_mode_b_timer_armed_only_on_poll_ack_witness :
    (((sl_cpc_system_cmd_noop sl_cpc_system_init 1 5).commands.getLast?).map
        CommandHandle.timer_fd = some none
      ∧ (sl_cpc_system_cmd_noop sl_cpc_system_init 1 5).liveTimerFds
          = sl_cpc_system_init.liveTimerFds
      ∧ (sl_cpc_system_cmd_noop sl_cpc_system_init 1 5).registeredTimerFds
          = sl_cpc_system_init.registeredTimerFds)
    ∧ (((run .little env0 [Op.noop 1 5]).commands.getD 0 dummyHandle).error_status = .ok →
      sl_cpc_system_cmd_poll_acknowledged (run .little env0 [Op.noop 1 5])
          { command_id := CMD_SYSTEM_NOOP, command_seq := 0, length := 0, payload := [] }
        = { run .little env0 [Op.noop 1 5] with
            nextFd := (run .little env0 [Op.noop 1 5]).nextFd + 1
            liveTimerFds := (run .little env0 [Op.noop 1 5]).liveTimerFds
              ++ [(run .little env0 [Op.noop 1 5]).nextFd]
            registeredTimerFds := (run .little env0 [Op.noop 1 5]).registeredTimerFds
              ++ [(run .little env0 [Op.noop 1 5]).nextFd]
            commands := updateFirst (fun g => g.command_seq == 0)
              (fun g => { g with timer_fd := some (run .little env0 [Op.noop 1 5]).nextFd })
              (run .little env0 [Op.noop 1 5]).commands
            events := (run .little env0 [Op.noop 1 5]).events
              ++ [.timerArmed (some (run .little env0 [Op.noop 1 5]).nextFd)] }) := by
  constructor
  · exact (C5_mode_b_timer_armed_only_on_poll_ack .little sl_cpc_system_init
      { command_id := CMD_SYSTEM_NOOP, command_seq := 0, length := 0, payload := [] }).1 1 5
  · intro hok
    exact (((C5_mode_b_timer_armed_only_on_poll_ack .little (run .little env0 [Op.noop 1 5])
      { command_id := CMD_SYSTEM_NOOP, command_seq := 0, length := 0,
        payload := [] }).2.2.2.2
      ((run .little env0 [Op.noop 1 5]).commands.getD 0 dummyHandle) (by decide)).1 hok)

/-- C4: the claim says every timer registration is matched by an unregister
and close on every descriptor exit path, including the reset-controller
drain, so that no timer handles remain live after
`reset_system_endpoint`.  Evaluating the code at the failing input — one
noop issued, its poll acknowledged (timer fd 0 created and registered),
then `sl_cpc_system_reset_system_endpoint` — drains the command table but
leaves fd 0 both open and registered in the epoll set, while the same
in-flight command completing through the reply path leaves no live timer. -/
theorem C4_reset_drain_leaves_timer_live :
    (run .little env0 resetDrainTrace).commands = []
    ∧ (run .little env0 resetDrainTrace).liveTimerFds = [0]
    ∧ (run .little env0 resetDrainTrace).registeredTimerFds = [0]
    ∧ (run .little env0 replyCleanupTrace).commands = []
    ∧ (run .little env0 replyCleanupTrace).liveTimerFds = []
    ∧ (run .little env0 replyCleanupTrace).registeredTimerFds = [] := by
  decide

/-- C10: on terminal timeout of a property-get or property-set command the
final handler receives `value = NULL` (`none`) and `value_len = 0`, with the
`property_id` argument read verbatim (host order, no `le32_to_cpu`) from the
transmit buffer where it was stored in little-endian wire order; the
successful reply path instead converts and recovers the original id.  On a
little-endian host the verbatim read coincides with the original id; on a
big-endian host it is the byte-swapped value (`0x0A` reads back as
`0x0A000000`). -/
theorem C10_timeout_property_id_verbatim (e : Endian) (s : SysState)
    (rc rt pid : Nat) (vb : List Nat)
    (hempty : s.commands = []) (hpid : pid < 2 ^ 32) (hvb : vb.length ≠ 0) :
    (∃ h', (sl_cpc_system_cmd_property_set e s rc rt pid vb).commands = [h']
      ∧ sl_cpc_system_cmd_timed_out e (sl_cpc_system_cmd_property_set e s rc rt pid vb)
          h'.command
        = { sl_cpc_system_cmd_property_set e s rc rt pid vb with
            commands := []
            events := (sl_cpc_system_cmd_property_set e s rc rt pid vb).events
              ++ [.finalCallback h'.hid
                  (.propertyArgs (hostRead e (toLEBytes 4 pid)) none 0 .timeout)] }
      ∧ (on_final_property_is e h'
          { command_id := CMD_SYSTEM_PROP_VALUE_IS, command_seq := h'.command_seq,
            length := h'.command.length, payload := h'.command.payload }).propId
          = some pid)
    ∧ (∃ hg, (sl_cpc_system_cmd_property_get s pid rc rt).commands = [hg]
      ∧ sl_cpc_system_cmd_timed_out e (sl_cpc_system_cmd_property_get s pid rc rt)
          hg.command
        = { sl_cpc_system_cmd_property_get s pid rc rt with
            commands := []
            events := (sl_cpc_system_cmd_property_get s pid rc rt).events
              ++ [.finalCallback hg.hid
                  (.propertyArgs (hostRead e (toLEBytes 4 pid)) none 0 .timeout)] })
    ∧ hostRead .little (toLEBytes 4 pid) = pid
    ∧ hostRead .big (toLEBytes 4 0x0A) = 0x0A000000
    ∧ (0x0A000000 : Nat) ≠ 0x0A := by
  refine ⟨?_, ?_, ?_, by decide, by norm_num⟩
  · refine ⟨{ command_seq := s.next_command_seq,
              command := { command_id := CMD_SYSTEM_PROP_VALUE_SET,
                           command_seq := s.next_command_seq,
                           length := (SIZEOF_SL_CPC_PROPERTY_ID + vb.length) % 256,
                           payload := toLEBytes 4 pid ++ propertySetValueBytes e vb },
              retry_count := rc, retry_timeout_us := rt, error_status := .ok,
              timer_fd := none, hid := s.next_hid, issue_idx := s.issued_total },
      ?_, ?_, ?_⟩
    · simp [sl_cpc_system_cmd_property_set, hvb, write_command, hempty]
    · simp only [sl_cpc_system_cmd_timed_out, sl_cpc_system_cmd_property_set, hvb,
        if_neg hvb, write_command, hempty]
      simp only [List.nil_append, List.find?_cons, beq_self_eq_true, if_pos]
      simp [timedOutCallbackEvents, CMD_SYSTEM_PROP_VALUE_SET, CMD_SYSTEM_NOOP,
        CMD_SYSTEM_RESET, CMD_SYSTEM_PROP_VALUE_GET,
        take_length_append _ _ _ (length_toLEBytes 4 pid)]
    · simp only [on_final_property_is, CallbackArgs.propId]
      rw [decode_toLE4_head e pid _ hpid]
  · refine ⟨{ command_seq := s.next_command_seq,
              command := { command_id := CMD_SYSTEM_PROP_VALUE_GET,
                           command_seq := s.next_command_seq,
                           length := SIZEOF_SL_CPC_PROPERTY_ID,
                           payload := toLEBytes 4 pid },
              retry_count := rc, retry_timeout_us := rt, error_status := .ok,
              timer_fd := none, hid := s.next_hid, issue_idx := s.issued_total },
      ?_, ?_⟩
    · simp [sl_cpc_system_cmd_property_get, write_command, hempty]
    · simp only [sl_cpc_system_cmd_timed_out, sl_cpc_system_cmd_property_get,
        write_command, hempty]
      simp only [List.nil_append, List.find?_cons, beq_self_eq_true, if_pos]
      have htake : (toLEBytes 4 pid).take 4 = toLEBytes 4 pid := by
        have := take_length_append (toLEBytes 4 pid) [] 4 (length_toLEBytes 4 pid)
        simpa using this
      simp [timedOutCallbackEvents, CMD_SYSTEM_PROP_VALUE_GET, CMD_SYSTEM_NOOP,
        CMD_SYSTEM_RESET, CMD_SYSTEM_PROP_VALUE_SET, htake]
  · rw [show hostRead .little (toLEBytes 4 pid) = fromLEBytes (toLEBytes 4 pid) from rfl,
      fromLEBytes_toLEBytes]
    have h32 : (256 : Nat) ^ 4 = 2 ^ 32 := by norm_num
    rw [h32, Nat.mod_eq_of_lt hpid]

/-- Witness for C10 at `property_id = 0x0A`, a 4-byte value, little-endian
host and the empty initial command table. -/
theorem C10_timeout_property_id_verbatim_witness :
    (∃ h', (sl_cpc_system_cmd_property_set .little sl_cpc_system_init 1 1 0x0A
          [0x01, 0x00, 0x00, 0x00]).commands = [h']
      ∧ sl_cpc_system_cmd_timed_out .little
          (sl_cpc_system_cmd_property_set .little sl_cpc_system_init 1 1 0x0A
            [0x01, 0x00, 0x00, 0x00]) h'.command
        = { sl_cpc_system_cmd_property_set .little sl_cpc_system_init 1 1 0x0A
              [0x01, 0x00, 0x00, 0x00] with
            commands := []
            events := (sl_cpc_system_cmd_property_set .little sl_cpc_system_init 1 1 0x0A
                [0x01, 0x00, 0x00, 0x00]).events
              ++ [.finalCallback h'.hid
                  (.propertyArgs (hostRead .little (toLEBytes 4 0x0A)) none 0 .timeout)] }
      ∧ (on_final_property_is .little h'
          { command_id := CMD_SYSTEM_PROP_VALUE_IS, command_seq := h'.command_seq,
            length := h'.command.length, payload := h'.command.payload }).propId
          = some 0x0A)
    ∧ (∃ hg, (sl_cpc_system_cmd_property_get sl_cpc_system_init 0x0A 1 1).commands = [hg]
      ∧ sl_cpc_system_cmd_timed_out .little
          (sl_cpc_system_cmd_property_get sl_cpc_system_init 0x0A 1 1) hg.command
        = { sl_cpc_system_cmd_property_get sl_cpc_system_init 0x0A 1 1 with
            commands := []
            events := (sl_cpc_system_cmd_property_get sl_cpc_system_init 0x0A 1 1).events
              ++ [.finalCallback hg.hid
                  (.propertyArgs (hostRead .little (toLEBytes 4 0x0A)) none 0 .timeout)] })
    ∧ hostRead .little (toLEBytes 4 0x0A) = 0x0A
    ∧ hostRead .big (toLEBytes 4 0x0A) = 0x0A000000
    ∧ (0x0A000000 : Nat) ≠ 0x0A :=
  C10_timeout_property_id_verbatim .little sl_cpc_system_init 1 1 0x0A
    [0x01, 0x00, 0x00, 0x00] rfl (by norm_num) (by norm_num)

/-! ### Sequence-number invariant machinery (claim C3) -/

theorem mem_updateFirst {α : Type} {p : α → Bool} {f : α → α} {l : List α} {a : α}
    (ha : a ∈ updateFirst p f l) : a ∈ l ∨ ∃ b, b ∈ l ∧ a = f b := by
  induction l with
  | nil => simp [updateFirst] at ha
  | cons x xs ih =>
    by_cases hx : p x
    · simp only [updateFirst, if_pos hx, List.mem_cons] at ha
      rcases ha with rfl | ha
      · exact Or.inr ⟨x, List.mem_cons_self x xs, rfl⟩
      · exact Or.inl (List.mem_cons_of_mem x ha)
    · simp only [updateFirst, if_neg hx, List.mem_cons] at ha
      rcases ha with rfl | ha
      · exact Or.inl (List.mem_cons_self a xs)
      · rcases ih ha with h | ⟨b, hb, rfl⟩
        · exact Or.inl (List.mem_cons_of_mem x h)
        · exact Or.inr ⟨b, List.mem_cons_of_mem x hb, rfl⟩

theorem map_updateFirst {α β : Type} (p : α → Bool) (f : α → α) (proj : α → β)
    (hf : ∀ a, proj (f a) = proj a) (l : List α) :
    (updateFirst p f l).map proj = l.map proj := by
  induction l with
  | nil => rfl
  | cons x xs ih =>
    by_cases hx : p x
    · simp [updateFirst, hx, hf]
    · simp [updateFirst, hx, ih]

theorem nodup_map_eraseP_append {α β : Type} (key : α → β) (p : α → Bool) :
    ∀ (l : List α) (h : α), l.find? p = some h → (l.map key).Nodup →
      ∀ h' : α, key h' = key h → ((l.eraseP p ++ [h']).map key).Nodup := by
  intro l
  induction l with
  | nil =>
    intro h hfind
    simp at hfind
  | cons x xs ih =>
    intro h hfind hnd h' hk
    simp only [List.map_cons, List.nodup_cons] at hnd
    obtain ⟨hxnotin, hndxs⟩ := hnd
    by_cases hx : p x
    · rw [List.find?_cons_of_pos _ hx] at hfind
      injection hfind with hxh
      rw [List.eraseP_cons_of_pos hx, List.map_append, List.nodup_append]
      refine ⟨hndxs, List.nodup_singleton _, ?_⟩
      intro a ha hb
      simp only [List.map_cons, List.map_nil, List.mem_singleton] at hb
      subst hb
      rw [hk, ← hxh] at ha
      exact hxnotin ha
    · rw [List.find?_cons_of_neg _ hx] at hfind
      rw [List.eraseP_cons_of_neg hx]
      simp only [List.cons_append, List.map_cons, List.nodup_cons]
      constructor
      · intro hmem
        rw [List.map_append] at hmem
        rcases List.mem_append.mp hmem with hmem | hmem
        · exact hxnotin (((List.eraseP_sublist xs).map key).subset hmem)
        · simp only [List.map_cons, List.map_nil, List.mem_singleton] at hmem
          rw [hmem, hk] at hxnotin
          exact hxnotin (List.mem_map_of_mem key (List.mem_of_find?_eq_some hfind))
      · exact ih h hfind hndxs h' hk

/-- Any state transformation that only shrinks the command table (and keeps
the counters) preserves the sequence invariant. -/
theorem seqInv_of_fields {s t : SysState} (hinv : SeqInv s)
    (hnext : t.next_command_seq = s.next_command_seq)
    (htot : t.issued_total = s.issued_total)
    (hcmd : t.commands.Sublist s.commands) : SeqInv t := by
  obtain ⟨hc, hall, hnd⟩ := hinv
  refine ⟨by rw [hnext, htot, hc], ?_, ?_⟩
  · intro g hg
    have hmem := hcmd.subset hg
    rw [htot]
    exact hall g hmem
  · exact List.Nodup.sublist (hcmd.map (fun h => h.issue_idx)) hnd

/-- Stamping a fresh handle preserves the sequence invariant. -/
theorem seqInv_issue (s : SysState) (h : CommandHandle) (hinv : SeqInv s)
    (hidx : h.issue_idx = s.issued_total) (hseq : h.command_seq = s.issued_total % 256) :
    SeqInv (write_command { s with
      next_command_seq := (s.next_command_seq + 1) % 256
      issued_total := s.issued_total + 1
      next_hid := s.next_hid + 1 } h) := by
  obtain ⟨hc, hall, hnd⟩ := hinv
  refine ⟨?_, ?_, ?_⟩
  · show (s.next_command_seq + 1) % 256 = (s.issued_total + 1) % 256
    rw [hc]
    omega
  · intro g hg
    simp only [write_command, List.mem_append, List.mem_singleton] at hg
    rcases hg with hg | rfl
    · have hg' := hall g hg
      exact ⟨Nat.lt_succ_of_lt hg'.1, hg'.2⟩
    · refine ⟨?_, ?_⟩
      · rw [hidx]
        exact Nat.lt_succ_self _
      · rw [hseq, hidx]
  · show ((s.commands ++ [h]).map (fun g => g.issue_idx)).Nodup
    rw [List.map_append, List.nodup_append]
    refine ⟨hnd, List.nodup_singleton _, ?_⟩
    intro a ha hb
    simp only [List.map_cons, List.map_nil, List.mem_singleton] at hb
    obtain ⟨g, hg, rfl⟩ := List.mem_map.mp ha
    have hlt := (hall g hg).1
    rw [hb, hidx] at hlt
    exact absurd hlt (Nat.lt_irrefl _)

theorem seqInv_property_set (e : Endian) (s : SysState) (rc rt p : Nat) (v : List Nat)
    (hinv : SeqInv s) : SeqInv (sl_cpc_system_cmd_property_set e s rc rt p v) := by
  unfold sl_cpc_system_cmd_property_set
  by_cases hv : v.length = 0
  · simp only [if_pos hv]
    exact hinv
  · simp only [if_neg hv]
    exact seqInv_issue s _ hinv rfl hinv.1

theorem seqInv_poll_acknowledged (s : SysState) (f : SlCpcSystemCmd) (hinv : SeqInv s) :
    SeqInv (sl_cpc_system_cmd_poll_acknowledged s f) := by
  unfold sl_cpc_system_cmd_poll_acknowledged
  split
  · exact hinv
  · rename_i h hfind
    dsimp only
    split
    · refine ⟨hinv.1, ?_, ?_⟩
      · intro g hg
        dsimp only at hg
        rcases mem_updateFirst hg with hg' | ⟨b, hb, rfl⟩
        · exact hinv.2.1 g hg'
        · exact hinv.2.1 b hb
      · dsimp only
        rw [map_updateFirst (fun g => g.command_seq == f.command_seq)
          (fun g => { g with timer_fd := some s.nextFd })
          (fun g => g.issue_idx) (fun a => rfl) s.commands]
        exact hinv.2.2
    · split
      · exact hinv
      · exact hinv

theorem seqInv_timed_out (e : Endian) (s : SysState) (frame : SlCpcSystemCmd)
    (hinv : SeqInv s) : SeqInv (sl_cpc_system_cmd_timed_out e s frame) := by
  unfold sl_cpc_system_cmd_timed_out
  split
  · exact hinv
  · exact seqInv_of_fields hinv rfl rfl (List.eraseP_sublist s.commands)

theorem seqInv_on_timer_expired (e : Endian) (s : SysState) (hid : Nat)
    (hinv : SeqInv s) : SeqInv (on_timer_expired e s hid) := by
  unfold on_timer_expired
  split
  · exact hinv
  · rename_i h hfind
    split
    · refine ⟨hinv.1, ?_, ?_⟩
      · intro g hg
        simp only [write_command, List.mem_append, List.mem_singleton] at hg
        rcases hg with hg | rfl
        · exact hinv.2.1 g ((List.eraseP_sublist s.commands).subset hg)
        · exact hinv.2.1 h (List.mem_of_find?_eq_some hfind)
      · show ((s.commands.eraseP (fun g : CommandHandle => g.hid == hid) ++ [_]).map
          (fun g : CommandHandle => g.issue_idx)).Nodup
        exact nodup_map_eraseP_append _ _ s.commands h hfind hinv.2.2 _ rfl
    · exact seqInv_timed_out e _ h.command hinv

theorem seqInv_on_reply (e : Endian) (s : SysState) (a : List Nat)
    (hinv : SeqInv s) : SeqInv (on_reply e s a).1 := by
  unfold on_reply
  dsimp only
  split
  · exact hinv
  · split
    · exact hinv
    · split
      · exact seqInv_of_fields hinv rfl rfl (List.eraseP_sublist s.commands)
      · split
        · exact seqInv_of_fields hinv rfl rfl (List.eraseP_sublist s.commands)
        · split
          · exact seqInv_of_fields hinv rfl rfl (List.eraseP_sublist s.commands)
          · exact hinv

theorem seqInv_on_unsolicited (e : Endian) (env : Env) (s : SysState) (d : List Nat)
    (hinv : SeqInv s) : SeqInv (on_unsolicited e env s d).1 := by
  unfold on_unsolicited
  dsimp only
  split
  · exact hinv
  · split
    · split
      · exact hinv
      · split
        · refine seqInv_property_set e _ 5 100000 _ _ ?_
          split
          · exact hinv
          · exact hinv
        · exact hinv
    · exact hinv

/-- The sequence invariant is preserved by every event-loop step. -/
theorem seqInv_step (e : Endian) (env : Env) (s : SysState) (op : Op)
    (hinv : SeqInv s) : SeqInv (step e env s op) := by
  cases op with
  | noop r t => exact seqInv_issue s _ hinv rfl hinv.1
  | reboot r t => exact seqInv_issue s _ hinv rfl hinv.1
  | propertyGet p r t => exact seqInv_issue s _ hinv rfl hinv.1
  | propertySet r t p v => exact seqInv_property_set e s r t p v hinv
  | reply a => exact seqInv_on_reply e s a hinv
  | pollAck f => exact seqInv_poll_acknowledged s f hinv
  | timerExpired hid => exact seqInv_on_timer_expired e s hid hinv
  | resetEndpoint =>
    exact seqInv_of_fields hinv rfl rfl (List.nil_sublist s.commands)
  | unsolicited d => exact seqInv_on_unsolicited e env s d hinv
  | registerListener => exact hinv

theorem seqInv_foldl (e : Endian) (env : Env) (ops : List Op) :
    ∀ s : SysState, SeqInv s → SeqInv (ops.foldl (step e env) s) := by
  induction ops with
  | nil => exact fun s hs => hs
  | cons op ops ih => exact fun s hs => ih _ (seqInv_step e env s op hs)

/-- The sequence invariant holds in every reachable state. -/
theorem seqInv_run (e : Endian) (env : Env) (ops : List Op) :
    SeqInv (run e env ops) := by
  refine seqInv_foldl e env ops sl_cpc_system_init ⟨rfl, ?_, ?_⟩
  · intro g hg
    simp [sl_cpc_system_init] at hg
  · simp [sl_cpc_system_init]

/-- C3 counterexample: the claim as stated asserts that no two live
descriptors ever share a `command_seq`, including runs in which the 8-bit
post-incremented counter wraps around while earlier descriptors are still
live.  After 257 noop issuances with no completion, the table holds 257 live
descriptors and the ones at positions 0 and 256 are distinct descriptors
that both carry `command_seq = 0`. -/
theorem C3_counterexample :
    seqWrapState.commands.length = 257
    ∧ (seqWrapState.commands.getD 0 dummyHandle).command_seq = 0
    ∧ (seqWrapState.commands.getD 256 dummyHandle).command_seq = 0
    ∧ seqWrapState.commands.getD 0 dummyHandle ≠ seqWrapState.commands.getD 256 dummyHandle
    ∧ seqWrapState.commands.getD 0 dummyHandle ∈ seqWrapState.commands
    ∧ seqWrapState.commands.getD 256 dummyHandle ∈ seqWrapState.commands := by
  decide

/-- C3 (amended): in every reachable state, two distinct live descriptors
have distinct `command_seq` provided they were stamped fewer than 256
issuances apart (the counter has not wrapped past a still-live descriptor);
with 256 or more intervening issuances the 8-bit counter can collide, as the
counterexample shows. -/
theorem C3_seq_unique_within_window (e : Endian) (env : Env) (ops : List Op)
    (h1 h2 : CommandHandle)
    (hm1 : h1 ∈ (run e env ops).commands) (hm2 : h2 ∈ (run e env ops).commands)
    (hne : h1 ≠ h2)
    (hw1 : h1.issue_idx < h2.issue_idx + 256) (hw2 : h2.issue_idx < h1.issue_idx + 256) :
    h1.command_seq ≠ h2.command_seq := by
  obtain ⟨-, hall, hnd⟩ := seqInv_run e env ops
  have hidx : h1.issue_idx ≠ h2.issue_idx := fun heq =>
    hne (List.inj_on_of_nodup_map hnd hm1 hm2 heq)
  have e1 := (hall h1 hm1).2
  have e2 := (hall h2 hm2).2
  rw [e1, e2]
  omega

/-- Witness for the amended C3: two noops issued back to back are live
together and carry distinct sequence numbers. -/
theorem C3_seq_unique_within_window_witness :
    ((run .little env0 [Op.noop 1 1, Op.noop 1 1]).commands.getD 0 dummyHandle).command_seq
      ≠ ((run .little env0 [Op.noop 1 1, Op.noop 1 1]).commands.getD 1
          dummyHandle).command_seq :=
  C3_seq_unique_within_window .little env0 [Op.noop 1 1, Op.noop 1 1]
    ((run .little env0 [Op.noop 1 1, Op.noop 1 1]).commands.getD 0 dummyHandle)
    ((run .little env0 [Op.noop 1 1, Op.noop 1 1]).commands.getD 1 dummyHandle)
    (by decide) (by decide) (by decide) (by decide) (by decide)

/-! ### Timer retry machinery (claim C1) -/

theorem find?_eq_some_of_unique {α : Type} {p : α → Bool} {l : List α} {a : α}
    (ha : a ∈ l) (hpa : p a = true) (huniq : ∀ b ∈ l, p b = true → b = a) :
    l.find? p = some a := by
  induction l with
  | nil => cases ha
  | cons x xs ih =>
    by_cases hx : p x
    · rw [List.find?_cons_of_pos _ hx, huniq x (List.mem_cons_self x xs) hx]
    · rw [List.find?_cons_of_neg _ hx]
      rcases List.mem_cons.mp ha with rfl | ha2
      · exact absurd hpa hx
      · exact ih ha2 (fun b hb hpb => huniq b (List.mem_cons_of_mem x hb) hpb)

theorem eraseP_congr_unique {α : Type} {l : List α} {a : α} {p q : α → Bool}
    (hp : ∀ b ∈ l, p b = true → b = a) (hq : ∀ b ∈ l, q b = true → b = a)
    (hpa : p a = true) (hqa : q a = true) :
    l.eraseP p = l.eraseP q := by
  induction l with
  | nil => rfl
  | cons x xs ih =>
    by_cases hx : p x
    · have hxa : x = a := hp x (List.mem_cons_self x xs) hx
      have hqx : q x = true := by rw [hxa]; exact hqa
      rw [List.eraseP_cons_of_pos hx, List.eraseP_cons_of_pos hqx]
    · have hqx : ¬ q x = true := fun hq' => by
        have hxa : x = a := hq x (List.mem_cons_self x xs) hq'
        rw [hxa] at hx
        exact hx hpa
      rw [List.eraseP_cons_of_neg hx, List.eraseP_cons_of_neg hqx,
        ih (fun b hb hpb => hp b (List.mem_cons_of_mem x hb) hpb)
           (fun b hb hqb => hq b (List.mem_cons_of_mem x hb) hqb)]

theorem eraseP_no_match_of_nodup_key {α β : Type} (key : α → β) {p : α → Bool} :
    ∀ {l : List α} {a : α}, l.find? p = some a →
      (l.map key).Nodup →
      (∀ b ∈ l, p b = true → b = a) →
      ∀ b ∈ l.eraseP p, p b = false := by
  intro l
  induction l with
  | nil =>
    intro a hfind
    simp at hfind
  | cons x xs ih =>
    intro a hfind hnd huniq b hb
    simp only [List.map_cons, List.nodup_cons] at hnd
    obtain ⟨hxnotin, hndxs⟩ := hnd
    by_cases hx : p x
    · rw [List.find?_cons_of_pos _ hx] at hfind
      injection hfind with hxa
      rw [List.eraseP_cons_of_pos hx] at hb
      cases hpb : p b
      · rfl
      · exfalso
        have hba : b = a := huniq b (List.mem_cons_of_mem x hb) hpb
        rw [hba, ← hxa] at hb
        exact hxnotin (List.mem_map_of_mem key hb)
    · rw [List.find?_cons_of_neg _ hx] at hfind
      rw [List.eraseP_cons_of_neg hx] at hb
      rcases List.mem_cons.mp hb with rfl | hb2
      · cases hpb : p b
        · rfl
        · exact absurd hpb hx
      · exact ih hfind hndxs
          (fun c hc hpc => huniq c (List.mem_cons_of_mem x hc) hpc) b hb2

theorem eraseP_append_singleton_no_match {α : Type} {p : α → Bool} {h' : α}
    (hp : p h' = true) :
    ∀ {m : List α}, (∀ b ∈ m, p b = false) → (m ++ [h']).eraseP p = m := by
  intro m
  induction m with
  | nil =>
    intro _
    simp [List.eraseP_cons_of_pos hp]
  | cons x xs ih =>
    intro hall
    have hx : ¬ p x = true := by
      rw [hall x (List.mem_cons_self x xs)]
      simp
    rw [List.cons_append, List.eraseP_cons_of_neg hx,
      ih (fun b hb => hall b (List.mem_cons_of_mem x hb))]

theorem on_timer_expired_no_handle (e : Endian) (s : SysState) (hid : Nat)
    (hnone : s.commands.find? (fun h => h.hid == hid) = none) :
    on_timer_expired e s hid = s := by
  unfold on_timer_expired
  simp only [hnone]

theorem expireLoop_stable (e : Endian) (hid : Nat) :
    ∀ (k : Nat) (s : SysState),
      s.commands.find? (fun h => h.hid == hid) = none →
      expireLoop e hid k s = s := by
  intro k
  induction k with
  | zero => exact fun s _ => rfl
  | succ k ih =>
    intro s hnone
    show expireLoop e hid k (on_timer_expired e s hid) = s
    rw [on_timer_expired_no_handle e s hid hnone]
    exact ih s hnone

theorem on_timer_expired_retry (e : Endian) (s : SysState) (h : CommandHandle)
    (hfind : s.commands.find? (fun g => g.hid == h.hid) = some h)
    (hr : 0 < h.retry_count) :
    on_timer_expired e s h.hid
      = write_command { s with commands := s.commands.eraseP (fun g => g.hid == h.hid) }
          { h with retry_count := h.retry_count - 1, error_status := .inProgress } := by
  unfold on_timer_expired
  simp only [hfind]
  rw [if_pos hr]

theorem on_timer_expired_terminal (e : Endian) (s : SysState) (h : CommandHandle)
    (hfind : s.commands.find? (fun g => g.hid == h.hid) = some h)
    (hr : h.retry_count = 0)
    (hfind2 : s.commands.find?
      (fun g => g.command_seq == h.command.command_seq) = some h) :
    on_timer_expired e s h.hid
      = { s with
          commands := s.commands.eraseP
            (fun g => g.command_seq == h.command.command_seq)
          registeredTimerFds := closeFd s.registeredTimerFds h.timer_fd
          liveTimerFds := closeFd s.liveTimerFds h.timer_fd
          events := s.events ++ timedOutCallbackEvents e h } := by
  unfold on_timer_expired
  simp only [hfind]
  rw [if_neg (by omega)]
  unfold sl_cpc_system_cmd_timed_out
  simp only [hfind2]
  rfl

/-- One full retry cycle: with `r` retries left and no reply ever arriving,
`r + 1` timer expirations retransmit the unchanged buffer `r` times, then
remove the descriptor, close its timer, and deliver the timeout callback
once. -/
theorem expireLoop_full (e : Endian) :
    ∀ (r : Nat) (s : SysState) (h : CommandHandle),
      h ∈ s.commands →
      (s.commands.map (fun g => g.command_seq)).Nodup →
      (s.commands.map (fun g => g.hid)).Nodup →
      h.command.command_seq = h.command_seq →
      h.retry_count = r →
      expireLoop e h.hid (r + 1) s
        = { s with
            commands := s.commands.eraseP (fun g => g.hid == h.hid)
            registeredTimerFds := closeFd s.registeredTimerFds h.timer_fd
            liveTimerFds := closeFd s.liveTimerFds h.timer_fd
            events := s.events
              ++ List.replicate r (.coreWrite .informationPoll h.command.serialize)
              ++ timedOutCallbackEvents e h } := by
  intro r
  induction r with
  | zero =>
    intro s h hmem hseqnd hhidnd hseqeq hr
    have hinj_seq := List.inj_on_of_nodup_map hseqnd
    have hinj_hid := List.inj_on_of_nodup_map hhidnd
    have hfind : s.commands.find? (fun g => g.hid == h.hid) = some h :=
      find?_eq_some_of_unique hmem (by simp)
        (fun b hb hpb => hinj_hid hb hmem (by simpa using hpb))
    have hfind2 : s.commands.find?
        (fun g => g.command_seq == h.command.command_seq) = some h := by
      refine find?_eq_some_of_unique hmem (by simp [hseqeq]) ?_
      intro b hb hpb
      simp only [beq_iff_eq] at hpb
      rw [hseqeq] at hpb
      exact hinj_seq hb hmem hpb
    show on_timer_expired e s h.hid = _
    rw [on_timer_expired_terminal e s h hfind hr hfind2]
    have herase : s.commands.eraseP (fun g => g.command_seq == h.command.command_seq)
        = s.commands.eraseP (fun g => g.hid == h.hid) := by
      refine @eraseP_congr_unique CommandHandle s.commands h
        (fun g => g.command_seq == h.command.command_seq) (fun g => g.hid == h.hid)
        ?_ ?_ (by simp [hseqeq]) (by simp)
      · intro b hb hpb
        simp only [beq_iff_eq] at hpb
        rw [hseqeq] at hpb
        exact hinj_seq hb hmem hpb
      · intro b hb hpb
        exact hinj_hid hb hmem (by simpa using hpb)
    rw [herase]
    simp
  | succ r ih =>
    intro s h hmem hseqnd hhidnd hseqeq hr
    have hinj_hid := List.inj_on_of_nodup_map hhidnd
    have hfind : s.commands.find? (fun g => g.hid == h.hid) = some h :=
      find?_eq_some_of_unique hmem (by simp)
        (fun b hb hpb => hinj_hid hb hmem (by simpa using hpb))
    have huniq_hid : ∀ b ∈ s.commands, (b.hid == h.hid) = true → b = h :=
      fun b hb hpb => hinj_hid hb hmem (by simpa using hpb)
    show expireLoop e h.hid (r + 1) (on_timer_expired e s h.hid) = _
    rw [on_timer_expired_retry e s h hfind (by omega)]
    have hmem1 : ({ h with retry_count := h.retry_count - 1,
                           error_status := SlStatus.inProgress } : CommandHandle)
        ∈ (write_command
            { s with commands := s.commands.eraseP (fun g => g.hid == h.hid) }
            { h with retry_count := h.retry_count - 1,
                     error_status := SlStatus.inProgress }).commands := by
      simp [write_command]
    have hseqnd1 : ((write_command
          { s with commands := s.commands.eraseP (fun g => g.hid == h.hid) }
          { h with retry_count := h.retry_count - 1,
                   error_status := SlStatus.inProgress }).commands.map
          (fun g => g.command_seq)).Nodup :=
      nodup_map_eraseP_append (fun g : CommandHandle => g.command_seq)
        (fun g : CommandHandle => g.hid == h.hid)
        s.commands h hfind hseqnd
        { h with retry_count := h.retry_count - 1, error_status := SlStatus.inProgress } rfl
    have hhidnd1 : ((write_command
          { s with commands := s.commands.eraseP (fun g => g.hid == h.hid) }
          { h with retry_count := h.retry_count - 1,
                   error_status := SlStatus.inProgress }).commands.map
          (fun g => g.hid)).Nodup :=
      nodup_map_eraseP_append (fun g : CommandHandle => g.hid)
        (fun g : CommandHandle => g.hid == h.hid)
        s.commands h hfind hhidnd
        { h with retry_count := h.retry_count - 1, error_status := SlStatus.inProgress } rfl
    have key' : expireLoop e h.hid (r + 1)
        (write_command { s with commands := s.commands.eraseP (fun g => g.hid == h.hid) }
          { h with retry_count := h.retry_count - 1, error_status := SlStatus.inProgress })
      = { s with
          commands := ((s.commands.eraseP (fun g : CommandHandle => g.hid == h.hid))
            ++ [{ h with retry_count := h.retry_count - 1,
                         error_status := SlStatus.inProgress }]).eraseP
              (fun g : CommandHandle => g.hid == h.hid)
          registeredTimerFds := closeFd s.registeredTimerFds h.timer_fd
          liveTimerFds := closeFd s.liveTimerFds h.timer_fd
          events := (s.events ++ [.coreWrite .informationPoll h.command.serialize])
            ++ List.replicate r (.coreWrite .informationPoll h.command.serialize)
            ++ timedOutCallbackEvents e h } :=
      ih (write_command
            { s with commands := s.commands.eraseP (fun g => g.hid == h.hid) }
            { h with retry_count := h.retry_count - 1,
                     error_status := SlStatus.inProgress })
        { h with retry_count := h.retry_count - 1, error_status := SlStatus.inProgress }
        hmem1 hseqnd1 hhidnd1 hseqeq (by simp; omega)
    rw [key']
    have hnomatch : ∀ b ∈ s.commands.eraseP (fun g => g.hid == h.hid),
        (b.hid == h.hid) = false :=
      eraseP_no_match_of_nodup_key (fun g : CommandHandle => g.hid) hfind hhidnd huniq_hid
    rw [@eraseP_append_singleton_no_match CommandHandle (fun g => g.hid == h.hid)
      { h with retry_count := h.retry_count - 1, error_status := SlStatus.inProgress }
      (by simp) (s.commands.eraseP (fun g => g.hid == h.hid)) hnomatch]
    simp [List.replicate_succ, List.append_assoc]

theorem expireLoop_add (e : Endian) (hid : Nat) :
    ∀ (m n : Nat) (s : SysState),
      expireLoop e hid (m + n) s = expireLoop e hid n (expireLoop e hid m s) := by
  intro m
  induction m with
  | zero =>
    intro n s
    rw [Nat.zero_add]
    rfl
  | succ m ih =>
    intro n s
    rw [Nat.succ_add]
    show expireLoop e hid (m + n) (on_timer_expired e s hid) = _
    rw [ih n (on_timer_expired e s hid)]
    rfl

theorem timedOutCallbackEvents_valid (e : Endian) (h : CommandHandle)
    (hvalid : h.command.command_id = CMD_SYSTEM_NOOP
      ∨ h.command.command_id = CMD_SYSTEM_RESET
      ∨ h.command.command_id = CMD_SYSTEM_PROP_VALUE_GET
      ∨ h.command.command_id = CMD_SYSTEM_PROP_VALUE_SET) :
    timedOutCallbackEvents e h = [.finalCallback h.hid (timeoutArgsOf e h)] := by
  rcases hvalid with h1 | h1 | h1 | h1 <;>
    simp [timedOutCallbackEvents, timeoutArgsOf, h1, CMD_SYSTEM_NOOP, CMD_SYSTEM_RESET,
      CMD_SYSTEM_PROP_VALUE_GET, CMD_SYSTEM_PROP_VALUE_SET]

theorem timeoutArgsOf_status (e : Endian) (h : CommandHandle) :
    (timeoutArgsOf e h).status = .timeout := by
  unfold timeoutArgsOf
  split_ifs <;> rfl

theorem countWrites_append (a b : List Event) (c : SlCpcSystemCmd) :
    countWrites (a ++ b) c = countWrites a c + countWrites b c := by
  simp [countWrites, List.filter_append]

theorem countCallbacks_append (a b : List Event) (hid : Nat) :
    countCallbacks (a ++ b) hid = countCallbacks a hid + countCallbacks b hid := by
  simp [countCallbacks, List.filter_append]

theorem countWrites_replicate (r : Nat) (c : SlCpcSystemCmd) :
    countWrites (List.replicate r (.coreWrite .informationPoll c.serialize)) c = r := by
  induction r with
  | zero => rfl
  | succ r ih =>
    rw [List.replicate_succ]
    show countWrites (Event.coreWrite .informationPoll c.serialize
      :: List.replicate r (.coreWrite .informationPoll c.serialize)) c = r + 1
    simp only [countWrites, List.filter_cons] at ih ⊢
    simp only [beq_self_eq_true, if_pos, List.length_cons]
    rw [show (List.filter (fun ev => ev == Event.coreWrite .informationPoll c.serialize)
      (List.replicate r (.coreWrite .informationPoll c.serialize))).length = r from ih]

theorem countWrites_timedOut (e : Endian) (h : CommandHandle) (c : SlCpcSystemCmd) :
    countWrites (timedOutCallbackEvents e h) c = 0 := by
  unfold timedOutCallbackEvents countWrites
  split_ifs <;> simp

theorem countCallbacks_replicate_write (r : Nat) (c : SlCpcSystemCmd) (hid : Nat) :
    countCallbacks (List.replicate r (.coreWrite .informationPoll c.serialize)) hid = 0 := by
  induction r with
  | zero => rfl
  | succ r ih =>
    rw [List.replicate_succ]
    simp only [countCallbacks, List.filter_cons] at ih ⊢
    simp

theorem countCallbacks_single_callback (hid : Nat) (args : CallbackArgs) :
    countCallbacks [.finalCallback hid args] hid = 1 := by
  simp [countCallbacks]

/-- Whatever the number of timer expirations delivered, the retransmission
count grows by at most the remaining `retry_count`. -/
theorem countWrites_expireLoop_le (e : Endian) :
    ∀ (k : Nat) (s : SysState) (h : CommandHandle),
      h ∈ s.commands →
      (s.commands.map (fun g => g.command_seq)).Nodup →
      (s.commands.map (fun g => g.hid)).Nodup →
      h.command.command_seq = h.command_seq →
      countWrites (expireLoop e h.hid k s).events h.command
        ≤ countWrites s.events h.command + h.retry_count := by
  intro k
  induction k with
  | zero =>
    intro s h _ _ _ _
    exact Nat.le_add_right _ _
  | succ k ih =>
    intro s h hmem hseqnd hhidnd hseqeq
    have hinj_seq := List.inj_on_of_nodup_map hseqnd
    have hinj_hid := List.inj_on_of_nodup_map hhidnd
    have hfind : s.commands.find? (fun g => g.hid == h.hid) = some h :=
      find?_eq_some_of_unique hmem (by simp)
        (fun b hb hpb => hinj_hid hb hmem (by simpa using hpb))
    by_cases hr : 0 < h.retry_count
    · show countWrites (expireLoop e h.hid k (on_timer_expired e s h.hid)).events
          h.command ≤ _
      rw [on_timer_expired_retry e s h hfind hr]
      have hmem1 : ({ h with retry_count := h.retry_count - 1,
                             error_status := SlStatus.inProgress } : CommandHandle)
          ∈ (write_command
              { s with commands := s.commands.eraseP (fun g => g.hid == h.hid) }
              { h with retry_count := h.retry_count - 1,
                       error_status := SlStatus.inProgress }).commands := by
        simp [write_command]
      have hseqnd1 := nodup_map_eraseP_append (fun g : CommandHandle => g.command_seq)
        (fun g : CommandHandle => g.hid == h.hid) s.commands h hfind hseqnd
        { h with retry_count := h.retry_count - 1, error_status := SlStatus.inProgress } rfl
      have hhidnd1 := nodup_map_eraseP_append (fun g : CommandHandle => g.hid)
        (fun g : CommandHandle => g.hid == h.hid) s.commands h hfind hhidnd
        { h with retry_count := h.retry_count - 1, error_status := SlStatus.inProgress } rfl
      have hle := ih (write_command
          { s with commands := s.commands.eraseP (fun g => g.hid == h.hid) }
          { h with retry_count := h.retry_count - 1,
                   error_status := SlStatus.inProgress })
        { h with retry_count := h.retry_count - 1, error_status := SlStatus.inProgress }
        hmem1 hseqnd1 hhidnd1 hseqeq
      refine le_trans hle ?_
      show countWrites (s.events ++ [Event.coreWrite .informationPoll h.command.serialize])
          h.command + (h.retry_count - 1)
        ≤ countWrites s.events h.command + h.retry_count
      rw [countWrites_append]
      have h1 : countWrites [Event.coreWrite .informationPoll h.command.serialize]
          h.command = 1 := by
        simp [countWrites]
      rw [h1]
      omega
    · have hr0 : h.retry_count = 0 := by omega
      have hfind2 : s.commands.find?
          (fun g => g.command_seq == h.command.command_seq) = some h := by
        refine find?_eq_some_of_unique hmem (by simp [hseqeq]) ?_
        intro b hb hpb
        simp only [beq_iff_eq] at hpb
        rw [hseqeq] at hpb
        exact hinj_seq hb hmem hpb
      show countWrites (expireLoop e h.hid k (on_timer_expired e s h.hid)).events
          h.command ≤ _
      rw [on_timer_expired_terminal e s h hfind hr0 hfind2]
      have herase : s.commands.eraseP (fun g => g.command_seq == h.command.command_seq)
          = s.commands.eraseP (fun g => g.hid == h.hid) := by
        refine @eraseP_congr_unique CommandHandle s.commands h
          (fun g => g.command_seq == h.command.command_seq) (fun g => g.hid == h.hid)
          ?_ ?_ (by simp [hseqeq]) (by simp)
        · intro b hb hpb
          simp only [beq_iff_eq] at hpb
          rw [hseqeq] at hpb
          exact hinj_seq hb hmem hpb
        · intro b hb hpb
          exact hinj_hid hb hmem (by simpa using hpb)
      have hnomatch := eraseP_no_match_of_nodup_key (fun g : CommandHandle => g.hid)
        hfind hhidnd (fun b hb hpb => hinj_hid hb hmem (by simpa using hpb))
      have hnone : (s.commands.eraseP
          (fun g => g.command_seq == h.command.command_seq)).find?
          (fun g => g.hid == h.hid) = none := by
        rw [herase, List.find?_eq_none]
        intro b hb
        have hb2 := hnomatch b hb
        simp only at hb2
        simp [hb2]
      rw [expireLoop_stable e h.hid k _ hnone]
      show countWrites (s.events ++ timedOutCallbackEvents e h) h.command ≤ _
      rw [countWrites_append, countWrites_timedOut]
      omega

/-- C1: a timer expiration with retries left unlinks the descriptor,
decrements `retry_count`, marks it IN_PROGRESS, and re-inserts it at the
tail through the issuer write path (same sequence number, same buffer); an
expiration with `retry_count = 0` unlinks the descriptor, closes its timer,
and invokes the final handler exactly once with TIMEOUT status, freeing the
descriptor.  Over any number of expirations the number of retransmissions
is at most the initial `retry_count`, and once the descriptor is gone
further expirations change nothing. -/
theorem C1_timer_retry_and_bounded_timeout (e : Endian) (s : SysState)
    (h : CommandHandle)
    (hmem : h ∈ s.commands)
    (hseqnd : (s.commands.map (fun g => g.command_seq)).Nodup)
    (hhidnd : (s.commands.map (fun g => g.hid)).Nodup)
    (hseqeq : h.command.command_seq = h.command_seq)
    (hvalid : h.command.command_id = CMD_SYSTEM_NOOP
      ∨ h.command.command_id = CMD_SYSTEM_RESET
      ∨ h.command.command_id = CMD_SYSTEM_PROP_VALUE_GET
      ∨ h.command.command_id = CMD_SYSTEM_PROP_VALUE_SET) :
    (0 < h.retry_count →
      on_timer_expired e s h.hid
        = write_command { s with commands := s.commands.eraseP (fun g => g.hid == h.hid) }
            { h with retry_count := h.retry_count - 1, error_status := .inProgress })
    ∧ (h.retry_count = 0 →
      on_timer_expired e s h.hid
        = { s with
            commands := s.commands.eraseP (fun g => g.hid == h.hid)
            registeredTimerFds := closeFd s.registeredTimerFds h.timer_fd
            liveTimerFds := closeFd s.liveTimerFds h.timer_fd
            events := s.events ++ [.finalCallback h.hid (timeoutArgsOf e h)] }
      ∧ (timeoutArgsOf e h).status = .timeout)
    ∧ expireLoop e h.hid (h.retry_count + 1) s
        = { s with
            commands := s.commands.eraseP (fun g => g.hid == h.hid)
            registeredTimerFds := closeFd s.registeredTimerFds h.timer_fd
            liveTimerFds := closeFd s.liveTimerFds h.timer_fd
            events := s.events
              ++ List.replicate h.retry_count
                  (.coreWrite .informationPoll h.command.serialize)
              ++ [.finalCallback h.hid (timeoutArgsOf e h)] }
    ∧ (∀ j, expireLoop e h.hid (h.retry_count + 1 + j) s
        = expireLoop e h.hid (h.retry_count + 1) s)
    ∧ (∀ k, countWrites (expireLoop e h.hid k s).events h.command
        ≤ countWrites s.events h.command + h.retry_count)
    ∧ countCallbacks (expireLoop e h.hid (h.retry_count + 1) s).events h.hid
        = countCallbacks s.events h.hid + 1 := by
  have hinj_seq := List.inj_on_of_nodup_map hseqnd
  have hinj_hid := List.inj_on_of_nodup_map hhidnd
  have hfind : s.commands.find? (fun g => g.hid == h.hid) = some h :=
    find?_eq_some_of_unique hmem (by simp)
      (fun b hb hpb => hinj_hid hb hmem (by simpa using hpb))
  have hfind2 : s.commands.find?
      (fun g => g.command_seq == h.command.command_seq) = some h := by
    refine find?_eq_some_of_unique hmem (by simp [hseqeq]) ?_
    intro b hb hpb
    simp only [beq_iff_eq] at hpb
    rw [hseqeq] at hpb
    exact hinj_seq hb hmem hpb
  have herase : s.commands.eraseP (fun g => g.command_seq == h.command.command_seq)
      = s.commands.eraseP (fun g => g.hid == h.hid) := by
    refine @eraseP_congr_unique CommandHandle s.commands h
      (fun g => g.command_seq == h.command.command_seq) (fun g => g.hid == h.hid)
      ?_ ?_ (by simp [hseqeq]) (by simp)
    · intro b hb hpb
      simp only [beq_iff_eq] at hpb
      rw [hseqeq] at hpb
      exact hinj_seq hb hmem hpb
    · intro b hb hpb
      exact hinj_hid hb hmem (by simpa using hpb)
  have hfull := expireLoop_full e h.retry_count s h hmem hseqnd hhidnd hseqeq rfl
  rw [timedOutCallbackEvents_valid e h hvalid] at hfull
  have hnomatch := eraseP_no_match_of_nodup_key (fun g : CommandHandle => g.hid)
    hfind hhidnd (fun b hb hpb => hinj_hid hb hmem (by simpa using hpb))
  have hnone : (s.commands.eraseP (fun g => g.hid == h.hid)).find?
      (fun g => g.hid == h.hid) = none := by
    rw [List.find?_eq_none]
    intro b hb
    have hb2 := hnomatch b hb
    simp only at hb2
    simp [hb2]
  refine ⟨?_, ?_, hfull, ?_, ?_, ?_⟩
  · intro hr
    exact on_timer_expired_retry e s h hfind hr
  · intro hr0
    refine ⟨?_, timeoutArgsOf_status e h⟩
    rw [on_timer_expired_terminal e s h hfind hr0 hfind2, herase,
      timedOutCallbackEvents_valid e h hvalid]
  · intro j
    rw [expireLoop_add e h.hid (h.retry_count + 1) j s, hfull]
    rw [expireLoop_stable e h.hid j _ hnone]
  · intro k
    exact countWrites_expireLoop_le e k s h hmem hseqnd hhidnd hseqeq
  · rw [hfull]
    show countCallbacks (s.events
        ++ List.replicate h.retry_count (.coreWrite .informationPoll h.command.serialize)
        ++ [.finalCallback h.hid (timeoutArgsOf e h)]) h.hid
      = countCallbacks s.events h.hid + 1
    rw [countCallbacks_append, countCallbacks_append,
      countCallbacks_replicate_write, countCallbacks_single_callback]

/-- Witness for C1: a single noop with two retries in flight; after three
expirations the handler has been called exactly once. -/
theorem C1_timer_retry_and_bounded_timeout_witness :
    countCallbacks (expireLoop .little
        ((run .little env0 [Op.noop 2 5]).commands.getD 0 dummyHandle).hid
        (((run .little env0 [Op.noop 2 5]).commands.getD 0 dummyHandle).retry_count + 1)
        (run .little env0 [Op.noop 2 5])).events
      ((run .little env0 [Op.noop 2 5]).commands.getD 0 dummyHandle).hid
      = countCallbacks (run .little env0 [Op.noop 2 5]).events
          ((run .little env0 [Op.noop 2 5]).commands.getD 0 dummyHandle).hid + 1 :=
  (C1_timer_retry_and_bounded_timeout .little (run .little env0 [Op.noop 2 5])
    ((run .little env0 [Op.noop 2 5]).commands.getD 0 dummyHandle)
    (by decide) (by decide) (by decide) (by decide) (by decide)).2.2.2.2.2

end CpcSystem
